import Mathlib

/-!
A shallow embedding of the multi-strategy tender-scraping pipeline of
`tools/scraper.py` (class `TenderScraper`, class `RateLimiter`), together with
theorems checking the natural-language specification against it.

Python strings are modelled as lists of characters (`PyStr`), so that `len`,
slicing and `strip` have exactly Python's code-point semantics.  Wall-clock
time is supplied as an explicit `PyDateTime` value (the result of
`datetime.now()`), and the network / browser world is supplied as an explicit
strategy environment: each extraction strategy is an oracle returning either a
list of raw tender records or an exception (`Except Unit`).
-/

/-- Python `str` as a list of characters (code points). -/
abbrev PyStr := List Char

/-- Convert a Lean string literal to a `PyStr`. -/
def txt (s : String) : PyStr := s.data

/-- Characters treated as whitespace by Python's `str.strip()` / `str.split()`
(the ASCII ones; the scraper only manipulates ASCII whitespace). -/
def pyIsSpace (c : Char) : Bool :=
  c = ' ' || c = '\t' || c = '\n' || c = '\r' || c = '\x0b' || c = '\x0c'

/-- Python `s.strip()`: drop leading and trailing whitespace. -/
def pyStrip (l : PyStr) : PyStr :=
  (((l.dropWhile pyIsSpace).reverse.dropWhile pyIsSpace)).reverse

/-- Python `s.split()` (no argument): split on whitespace runs, no empties. -/
def pySplit (l : PyStr) : List PyStr :=
  (l.splitOnP pyIsSpace).filter (fun w => w ≠ [])

/-- Python `' '.join(s.split())`: collapse internal whitespace runs to single
spaces (used repeatedly by the table extractors to clean cell text). -/
def normSpaces (l : PyStr) : PyStr :=
  List.intercalate [' '] (pySplit l)

/-- Python `s.lower()` (ASCII). -/
def pyLower (l : PyStr) : PyStr := l.map Char.toLower

/-- `p` occurs at the start of `l`. -/
def startsWith : PyStr → PyStr → Bool
  | [], _ => true
  | _ :: _, [] => false
  | p :: ps, c :: cs => p = c && startsWith ps cs

/-- Python `pat in s`: substring occurrence (the empty pattern occurs). -/
def hasSub (pat : PyStr) : PyStr → Bool
  | [] => startsWith pat []
  | l@(_ :: rest) => startsWith pat l || hasSub pat rest

/-! ### The date regular expression

`scraper.py` uses the pattern
`\d{1,2}SEP\d{1,2}SEP\d{2,4}|\d{4}SEP\d{1,2}SEP\d{1,2}  (SEP = slash or dash)`
with `re.match` (validation in `_post_process_tenders`) and `re.search`
(extraction in the table-row and RSS helpers).  The model below implements the
PCRE backtracking semantics for this concrete pattern: alternatives tried left
to right, bounded quantifiers greedy, leftmost match wins for `search`.
`re.match` anchors at the start of the string only (no `$`), so a successful
match may leave trailing characters: `dateAtStart` returns the length of the
match if one exists at position 0. -/

/-- A date separator, the slash-or-dash character class of the date pattern. -/
def isSep (c : Char) : Bool := c = '/' || c = '-'

/-- Number of leading decimal digits. -/
def digitRun : PyStr → Nat
  | [] => 0
  | c :: r => if c.isDigit then digitRun r + 1 else 0

/-- Try to match exactly `n` digits followed by a separator, then continue with
`k` on the remainder; result is the total matched length. -/
def tryDigitsSep (l : PyStr) (n : Nat) (k : PyStr → Option Nat) : Option Nat :=
  if digitRun l ≥ n then
    match l.drop n with
    | s :: rest => if isSep s then (k rest).map (fun m => m + n + 1) else none
    | [] => none
  else none

/-- `\d{1,2}` followed by a separator, with continuation `k` (greedy: two digits tried first). -/
def seg12 (l : PyStr) (k : PyStr → Option Nat) : Option Nat :=
  (tryDigitsSep l 2 k).orElse (fun _ => tryDigitsSep l 1 k)

/-- Trailing `\d{2,4}` (greedy). -/
def tail24 (l : PyStr) : Option Nat :=
  if digitRun l ≥ 2 then some (min (digitRun l) 4) else none

/-- Trailing `\d{1,2}` (greedy). -/
def tail12 (l : PyStr) : Option Nat :=
  if digitRun l ≥ 1 then some (min (digitRun l) 2) else none

/-- First alternative `\d{1,2} sep \d{1,2} sep \d{2,4}` at the start of `l`. -/
def dateAlt1 (l : PyStr) : Option Nat :=
  seg12 l (fun r1 => seg12 r1 (fun r2 => tail24 r2))

/-- Second alternative `\d{4} sep \d{1,2} sep \d{1,2}` at the start of `l`. -/
def dateAlt2 (l : PyStr) : Option Nat :=
  tryDigitsSep l 4 (fun r1 => seg12 r1 (fun r2 => tail12 r2))

/-- `re.match` of the date pattern: a match starting at position 0 (length
returned); the end is not anchored. -/
def dateAtStart (l : PyStr) : Option Nat :=
  (dateAlt1 l).orElse (fun _ => dateAlt2 l)

/-- `re.search(...).group(1)` of the date pattern: leftmost match. -/
def dateSearch : PyStr → Option PyStr
  | [] => none
  | l@(_ :: rest) =>
    match dateAtStart l with
    | some n => some (l.take n)
    | none => dateSearch rest

example : dateAtStart (txt "01/03/2025") = some 10 := by decide
example : dateAtStart (txt "01/03/2025 at noon") = some 10 := by decide
example : dateAtStart (txt "2025-02-15") = some 10 := by decide
example : dateAtStart (txt "March 15, 2025") = none := by decide
example : dateSearch (txt "due by 01/03/2025 noon") = some (txt "01/03/2025") := by decide
example : dateSearch (txt "short") = none := by decide
example : dateAtStart (txt "1/2/34") = some 6 := by decide
example : dateSearch (txt "123-45-6789") = some (txt "23-45-6789") := by decide

/-- The date pattern anchored at BOTH ends (`^...$`), as the specification
states it ("no extra characters before or after the date literal").  This is
the property the spec claims of emitted deadlines; the code itself only
anchors the start (`dateAtStart`). -/
def specAnchoredDate (l : PyStr) : Bool :=
  anchored1 l || anchored2 l
where
  tailAllDigits (lo hi : Nat) (r : PyStr) : Bool :=
    r.all Char.isDigit && lo ≤ r.length && r.length ≤ hi
  segB (r : PyStr) (n : Nat) (k : PyStr → Bool) : Bool :=
    digitRun r ≥ n &&
      (match r.drop n with
       | s :: rest => isSep s && k rest
       | [] => false)
  anchored1 (l : PyStr) : Bool :=
    (segB l 2 (fun r1 => segB r1 2 (tailAllDigits 2 4) || segB r1 1 (tailAllDigits 2 4))) ||
    (segB l 1 (fun r1 => segB r1 2 (tailAllDigits 2 4) || segB r1 1 (tailAllDigits 2 4)))
  anchored2 (l : PyStr) : Bool :=
    segB l 4 (fun r1 => segB r1 2 (tailAllDigits 1 2) || segB r1 1 (tailAllDigits 1 2))

example : specAnchoredDate (txt "01/03/2025") = true := by decide
example : specAnchoredDate (txt "2025-02-15") = true := by decide
example : specAnchoredDate (txt "01/03/2025 at noon") = false := by decide
example : specAnchoredDate (txt "") = false := by decide

/-- `re.match(r'^[A-Z]{2}-[A-Z]+-\d+', s)` from `_extract_tender_from_table_row`:
two capitals, a dash, one or more capitals, a dash, one or more digits, at the
start of the string. -/
def tenderNumMatch (l : PyStr) : Bool :=
  match l with
  | a :: b :: c :: rest =>
    ('A' ≤ a && a ≤ 'Z') && ('A' ≤ b && b ≤ 'Z') && c = '-' &&
      (let u := rest.takeWhile (fun x => 'A' ≤ x && x ≤ 'Z')
       decide (u ≠ []) &&
         (match rest.drop u.length with
          | d :: r2 => d = '-' && decide (r2.takeWhile Char.isDigit ≠ [])
          | [] => false))
  | _ => false

example : tenderNumMatch (txt "TND-001") = false := by decide
example : tenderNumMatch (txt "KE-SUPPLY-2025 extra") = true := by decide

/-! ### The currency regular expression

`(\$|USD|EUR|GBP|KES|TZS)\s*([\d,]+(?:\.\d{2})?)` with `re.I`, used by the
dynamic element extractor.  The six alternatives start with pairwise distinct
characters, so no backtracking across alternatives is needed.  `group(1)` is
the token as it appears in the text, `group(2)` the amount. -/

/-- Length of the currency token matching at the start of `l`, if any
(case-insensitive). -/
def currencyTokAt (l : PyStr) : Option Nat :=
  match l with
  | '$' :: _ => some 1
  | _ =>
    if startsWith (txt "usd") (pyLower l) then some 3
    else if startsWith (txt "eur") (pyLower l) then some 3
    else if startsWith (txt "gbp") (pyLower l) then some 3
    else if startsWith (txt "kes") (pyLower l) then some 3
    else if startsWith (txt "tzs") (pyLower l) then some 3
    else none

/-- The amount `[\d,]+(?:\.\d{2})?` at the start of `l` (greedy). -/
def amountAt (l : PyStr) : Option PyStr :=
  let run := l.takeWhile (fun c => c.isDigit || c = ',')
  if run = [] then none
  else
    match l.drop run.length with
    | '.' :: d1 :: d2 :: _ =>
      if d1.isDigit && d2.isDigit then some (run ++ ['.', d1, d2]) else some run
    | _ => some run

/-- `re.search` of the currency pattern: leftmost token followed by optional
whitespace and an amount; returns (group 1, group 2). -/
def currencySearch : PyStr → Option (PyStr × PyStr)
  | [] => none
  | l@(_ :: rest) =>
    match currencyTokAt l with
    | some n =>
      (match amountAt ((l.drop n).dropWhile pyIsSpace) with
       | some amt => some (l.take n, amt)
       | none => currencySearch rest)
    | none => currencySearch rest

example : currencySearch (txt "budget USD 100,000 total") =
    some (txt "USD", txt "100,000") := by decide
example : currencySearch (txt "price $2,500.75") = some (txt "$", txt "2,500.75") := by decide
example : currencySearch (txt "no money here") = none := by decide

/-! ### Timestamps

`datetime.now().isoformat()` produces `YYYY-MM-DDTHH:MM:SS` plus `.ffffff`
when the microsecond field is nonzero.  `datetime` years are below 10000, so
the year always renders as exactly four digits. -/

/-- The result of `datetime.now()`: a wall-clock oracle. -/
structure PyDateTime where
  year : Nat
  month : Nat
  day : Nat
  hour : Nat
  minute : Nat
  second : Nat
  microsecond : Nat
deriving DecidableEq

/-- Render `n` as exactly two decimal digits (`%02d` for values below 100). -/
def pad2 (n : Nat) : PyStr := [Nat.digitChar (n / 10 % 10), Nat.digitChar (n % 10)]

/-- Render `n` as exactly four decimal digits. -/
def pad4 (n : Nat) : PyStr :=
  [Nat.digitChar (n / 1000 % 10), Nat.digitChar (n / 100 % 10),
   Nat.digitChar (n / 10 % 10), Nat.digitChar (n % 10)]

/-- Render `n` as exactly six decimal digits. -/
def pad6 (n : Nat) : PyStr :=
  [Nat.digitChar (n / 100000 % 10), Nat.digitChar (n / 10000 % 10),
   Nat.digitChar (n / 1000 % 10), Nat.digitChar (n / 100 % 10),
   Nat.digitChar (n / 10 % 10), Nat.digitChar (n % 10)]

/-- `datetime.isoformat()`. -/
def PyDateTime.isoformat (d : PyDateTime) : PyStr :=
  pad4 d.year ++ '-' :: pad2 d.month ++ '-' :: pad2 d.day ++
    'T' :: pad2 d.hour ++ ':' :: pad2 d.minute ++ ':' :: pad2 d.second ++
    (if d.microsecond = 0 then [] else '.' :: pad6 d.microsecond)

/-- Shape check for an ISO-8601 timestamp as `isoformat` emits it:
`dddd-dd-ddTdd:dd:dd` with an optional `.dddddd` fraction. -/
def isIso8601 (l : PyStr) : Bool :=
  match l with
  | [y1, y2, y3, y4, '-', m1, m2, '-', d1, d2, 'T',
     h1, h2, ':', i1, i2, ':', s1, s2] =>
    [y1, y2, y3, y4, m1, m2, d1, d2, h1, h2, i1, i2, s1, s2].all Char.isDigit
  | [y1, y2, y3, y4, '-', m1, m2, '-', d1, d2, 'T',
     h1, h2, ':', i1, i2, ':', s1, s2, '.', u1, u2, u3, u4, u5, u6] =>
    [y1, y2, y3, y4, m1, m2, d1, d2, h1, h2, i1, i2, s1, s2,
     u1, u2, u3, u4, u5, u6].all Char.isDigit
  | _ => false

example : isIso8601 ((PyDateTime.mk 2025 1 2 3 4 5 0).isoformat) = true := by decide
example : isIso8601 ((PyDateTime.mk 2025 12 31 23 59 59 123456).isoformat) = true := by decide

/-! ### The Tender record

Raw candidate records and emitted Tenders share one shape: a string-keyed
mapping.  The fields below are exactly the keys the scraper reads or writes;
`[]` models a key that is absent or holds the empty string (the two are
indistinguishable to the truthiness tests the code applies). -/

structure Tender where
  title : PyStr := []
  description : PyStr := []
  deadline : PyStr := []
  budget : PyStr := []
  location : PyStr := []
  industry : PyStr := []
  requirements : List PyStr := []
  source_url : PyStr := []
  scraped_at : PyStr := []
  tender_number : PyStr := []
  issue_date : PyStr := []
  rss_link : PyStr := []
  published_date : PyStr := []
deriving DecidableEq

/-! ### The post-processor (`_post_process_tenders`) -/

/-- One iteration of the loop body of `_post_process_tenders`: validate and
clean a single raw record; `none` models `continue` (record discarded). -/
def postProcessOne (t : Tender) (source_url : PyStr) (now : PyDateTime) :
    Option Tender :=
  if t.title = [] || (pyStrip t.title).length < 5 then none
  else some
    { t with
      title := pyStrip t.title
      source_url := source_url
      scraped_at := now.isoformat
      description :=
        if t.description ≠ [] then
          let d := pyStrip t.description
          if d.length > 500 then d.take 500 ++ txt "..." else d
        else t.description
      deadline :=
        if t.deadline ≠ [] then
          if (dateAtStart t.deadline).isSome then t.deadline else []
        else t.deadline }

/-- `_post_process_tenders(tenders, source_url)`. -/
def postProcess (tenders : List Tender) (source_url : PyStr) (now : PyDateTime) :
    List Tender :=
  tenders.filterMap (fun t => postProcessOne t source_url now)

/-- `_get_sample_tenders(source_url)`: the fixed sample data returned when all
strategies fail and `config.USE_SAMPLE_DATA` is set.  It bypasses the
post-processor. -/
def sampleTenders (source_url : PyStr) (now : PyDateTime) : List Tender :=
  [ { title := txt "Cloud Migration Services for Government Agency"
      description := txt "Seeking vendors to help migrate legacy systems to cloud infrastructure with security compliance requirements."
      deadline := txt "2025-02-15"
      budget := txt "USD 250,000"
      requirements := [txt "AWS Certified", txt "ISO 27001", txt "3+ similar projects"]
      industry := txt "Information Technology"
      location := txt "Kenya"
      source_url := source_url
      scraped_at := now.isoformat },
    { title := txt "Cybersecurity Infrastructure Upgrade"
      description := txt "Implementation of comprehensive cybersecurity solutions including endpoint protection and threat monitoring."
      deadline := txt "2025-03-01"
      budget := txt "USD 180,000"
      requirements := [txt "Cybersecurity expertise", txt "Government compliance", txt "24/7 support"]
      industry := txt "Information Technology"
      location := txt "Tanzania"
      source_url := source_url
      scraped_at := now.isoformat } ]

/-! ### The RSS strategy (`_scrape_with_rss` and its helpers)

A parsed feed entry.  `[]` models a field that is missing (`hasattr` false) or
empty — both are falsy to the code's tests. -/

structure RssEntry where
  title : PyStr := []
  summary : PyStr := []
  link : PyStr := []
  published : PyStr := []
  deadline : PyStr := []
  closing_date : PyStr := []
  due_date : PyStr := []
  expiry_date : PyStr := []
  location : PyStr := []
  country : PyStr := []
  region : PyStr := []
  area : PyStr := []
deriving DecidableEq

/-- The East-African gazetteer shared by the RSS/static location scans. -/
def locationPatterns : List PyStr :=
  [txt "Kenya", txt "Nairobi", txt "Mombasa", txt "Kisumu", txt "Nakuru",
   txt "Tanzania", txt "Dar es Salaam", txt "Dodoma", txt "Arusha", txt "Mwanza",
   txt "Africa", txt "East Africa", txt "Sub-Saharan Africa"]

/-- `_extract_deadline_from_rss(entry)`. -/
def extractDeadlineFromRss (e : RssEntry) : PyStr :=
  if e.deadline ≠ [] then e.deadline
  else if e.closing_date ≠ [] then e.closing_date
  else if e.due_date ≠ [] then e.due_date
  else if e.expiry_date ≠ [] then e.expiry_date
  else match dateSearch e.summary with
    | some d => d
    | none => []

/-- `_extract_location_from_rss(entry)`. -/
def extractLocationFromRss (e : RssEntry) : PyStr :=
  if e.location ≠ [] then e.location
  else if e.country ≠ [] then e.country
  else if e.region ≠ [] then e.region
  else if e.area ≠ [] then e.area
  else
    match locationPatterns.find? (fun p => hasSub (pyLower p) (pyLower e.summary)) with
    | some p => p
    | none => []

/-- The record built for one feed entry inside `_scrape_with_rss`. -/
def rssEntryToTender (e : RssEntry) (source_url : PyStr) (now : PyDateTime) :
    Tender :=
  { title := e.title.take 200
    description := e.summary.take 500
    deadline := extractDeadlineFromRss e
    budget := []
    requirements := []
    industry := txt "Information Technology"
    location := extractLocationFromRss e
    source_url := source_url
    rss_link := e.link
    published_date := e.published
    scraped_at := now.isoformat }

/-- `_scrape_with_rss`, given the parsed feed: empty feed yields `[]`;
otherwise the first 50 entries are mapped and entries with empty titles are
dropped. -/
def scrapeWithRss (feed : List RssEntry) (source_url : PyStr) (now : PyDateTime) :
    List Tender :=
  ((feed.take 50).map (fun e => rssEntryToTender e source_url now)).filter
    (fun t => t.title ≠ [])

/-! ### Industry extraction for API items (`_extract_industry_from_api`) -/

/-- An API item, restricted to the keys the industry extractor reads.
`[]` models a missing or empty value. -/
structure ApiItem where
  industry : PyStr := []
  sector : PyStr := []
  category : PyStr := []
  domain : PyStr := []
  field : PyStr := []
  title : PyStr := []
  description : PyStr := []
deriving DecidableEq

/-- The loop over the candidate industry keys: the first value that is truthy
and strips to a non-empty string is returned (stripped). -/
def firstIndustryField : List PyStr → Option PyStr
  | [] => none
  | f :: rest =>
    if f ≠ [] && pyStrip f ≠ [] then some (pyStrip f) else firstIndustryField rest

/-- The keyword table of `_extract_industry_from_api`, in source order. -/
def industryKeywords : List (PyStr × List PyStr) :=
  [(txt "Information Technology",
    [txt "it", txt "ict", txt "technology", txt "software", txt "hardware",
     txt "digital", txt "cloud", txt "cybersecurity"]),
   (txt "Telecommunications",
    [txt "telecom", txt "communication", txt "network", txt "broadband", txt "fiber"]),
   (txt "Infrastructure",
    [txt "infrastructure", txt "construction", txt "engineering", txt "building"]),
   (txt "Healthcare", [txt "health", txt "medical", txt "hospital", txt "clinic"]),
   (txt "Education", [txt "education", txt "school", txt "university", txt "training"]),
   (txt "Finance", [txt "finance", txt "banking", txt "financial", txt "accounting"])]

/-- Walk the keyword table; first industry any of whose keywords occurs in the
lowered text wins, defaulting to "Information Technology". -/
def inferIndustryAux : List (PyStr × List PyStr) → PyStr → PyStr
  | [], _ => txt "Information Technology"
  | (name, kws) :: rest, lowered =>
    if kws.any (fun k => hasSub k lowered) then name else inferIndustryAux rest lowered

/-- `_extract_industry_from_api(item)`. -/
def extractIndustryFromApi (item : ApiItem) : PyStr :=
  match firstIndustryField
      [item.industry, item.sector, item.category, item.domain, item.field] with
  | some i => i
  | none =>
    let text := (if item.title ≠ [] then ' ' :: item.title else []) ++
      (if item.description ≠ [] then ' ' :: item.description else [])
    inferIndustryAux industryKeywords (pyLower text)

example : extractIndustryFromApi { title := txt "Cloud Migration RFP" } =
    txt "Information Technology" := by decide
example : extractIndustryFromApi { sector := txt " Health " } = txt "Health" := by decide

/-! ### Table extraction

A table is a list of rows, each row the list of its cells' text content
(`inner_text()` for the rendered-DOM path, `get_text(strip=True)` for the
static path). -/

/-- The navigation/boilerplate keyword blocklist. -/
def skipWords : List PyStr :=
  [txt "menu", txt "navigation", txt "header", txt "footer", txt "sidebar"]

/-- The shared tail of both table-row extractors ("Clean up title if we have
tender number but no title"). -/
def finishRow (w : Tender) : Tender :=
  if w.title = [] && w.tender_number ≠ [] then { w with title := w.tender_number }
  else w

/-- `_extract_tender_from_table_row(cells, headers, page)` — the rendered-DOM
(Playwright) row extractor.  `headers` is accepted and ignored, as in the
source.  `pageUrl` models `page.url`. -/
def extractTenderFromTableRow (cells : List PyStr) (_headers : List PyStr)
    (pageUrl : PyStr) (now : PyDateTime) : Tender :=
  let step1 : Tender :=
    if cells.length ≥ 1 then
      let c0 := pyStrip (cells.getD 0 [])
      if c0 ≠ [] && c0.length > 5 then
        let c0 := normSpaces c0
        if tenderNumMatch c0 then { tender_number := c0 }
        else if c0.length > 20 then { title := c0 }
        else {}
      else {}
    else {}
  let step2 : Tender :=
    if cells.length ≥ 2 then
      let c1 := pyStrip (cells.getD 1 [])
      if c1 ≠ [] && c1.length > 10 then
        let c1 := normSpaces c1
        if step1.title = [] then { step1 with title := c1 }
        else { step1 with description := c1 }
      else step1
    else step1
  let step3 : Tender :=
    if cells.length ≥ 3 then
      let c2 := pyStrip (cells.getD 2 [])
      if c2 ≠ [] then
        let c2 := normSpaces c2
        match dateSearch c2 with
        | some d => { step2 with deadline := d }
        | none => { step2 with issue_date := c2 }
      else step2
    else step2
  let step4 : Tender :=
    if cells.length ≥ 4 then
      let c3 := pyStrip (cells.getD 3 [])
      if c3 ≠ [] then
        let c3 := normSpaces c3
        match dateSearch c3 with
        | some d => { step3 with deadline := d }
        | none => step3
      else step3
    else step3
  finishRow
    { step4 with
      industry := txt "Information Technology"
      requirements := []
      source_url := pageUrl
      scraped_at := now.isoformat }

/-- `_extract_tenders_from_single_table(table, page)` — the rendered-DOM table
extractor: header row skipped, at most 20 data rows, rows with at least two
cells, titles over 20 characters and free of blocklist keywords. -/
def extractTendersFromSingleTable (rows : List (List PyStr)) (pageUrl : PyStr)
    (now : PyDateTime) : List Tender :=
  if rows.length < 2 then []
  else
    let headers := (rows.getD 0 []).map (fun c => pyLower (pyStrip c))
    ((rows.drop 1).take 20).filterMap (fun row =>
      if row.length ≥ 2 then
        let t := extractTenderFromTableRow row headers pageUrl now
        if t.title ≠ [] then
          if t.title.length > 20 &&
              !(skipWords.any (fun w => hasSub w (pyLower t.title))) then
            some t
          else none
        else none
      else none)

/-- `_extract_tender_from_static_table_row(cells, headers, source_url)` — the
static-HTML (BeautifulSoup) row extractor.  Cell text is already stripped by
`get_text(strip=True)`. -/
def extractTenderFromStaticTableRow (cells : List PyStr) (_headers : List PyStr)
    (source_url : PyStr) (now : PyDateTime) : Tender :=
  let step1 : Tender :=
    if cells.length ≥ 1 then
      let c0 := cells.getD 0 []
      if c0 ≠ [] && c0.length > 5 then { tender_number := normSpaces c0 } else {}
    else {}
  let step2 : Tender :=
    if cells.length ≥ 2 then
      let c1 := cells.getD 1 []
      if c1 ≠ [] && c1.length > 10 then { step1 with title := normSpaces c1 }
      else step1
    else step1
  let step3 : Tender :=
    if cells.length ≥ 3 then
      let c2 := cells.getD 2 []
      if c2 ≠ [] then
        let c2 := normSpaces c2
        match dateSearch c2 with
        | some d => { step2 with deadline := d }
        | none => { step2 with issue_date := c2 }
      else step2
    else step2
  let step4 : Tender :=
    if cells.length ≥ 4 then
      let c3 := cells.getD 3 []
      if c3 ≠ [] then
        let c3 := normSpaces c3
        match dateSearch c3 with
        | some d => { step3 with deadline := d }
        | none => step3
      else step3
    else step3
  finishRow
    { step4 with
      industry := txt "Information Technology"
      requirements := []
      source_url := source_url
      scraped_at := now.isoformat }

/-- `_extract_tenders_from_static_table(table, source_url)`: header row
skipped, at most 20 data rows (`rows[1:21]`), rows with at least two cells,
records kept when a title was produced. -/
def extractTendersFromStaticTable (rows : List (List PyStr)) (source_url : PyStr)
    (now : PyDateTime) : List Tender :=
  if rows.length < 2 then []
  else
    let headers := (rows.getD 0 []).map pyLower
    ((rows.drop 1).take 20).filterMap (fun row =>
      if row.length ≥ 2 then
        let t := extractTenderFromStaticTableRow row headers source_url now
        if t.title ≠ [] then some t else none
      else none)

/-! ### The rendered-DOM element extractor (`_extract_tender_data_dynamic`) -/

/-- A rendered DOM element: its own `inner_text()` and, when present, the
`inner_text()` of the first `p`/`span`/`div`/`td` descendant. -/
structure DynElem where
  innerText : PyStr := []
  descText : Option PyStr := none
deriving DecidableEq

/-- `_extract_tender_data_dynamic(element, page)`; `none` models returning the
empty dict (the caller drops it). -/
def extractTenderDataDynamic (e : DynElem) (pageUrl : PyStr) (now : PyDateTime) :
    Option Tender :=
  if e.innerText = [] || (pyStrip e.innerText).length < 10 then none
  else
    let titleText := normSpaces e.innerText
    let description :=
      match e.descText with
      | some d =>
        if d ≠ [] && (pyStrip d).length > 20 then (pyStrip (normSpaces d)).take 500
        else []
      | none => []
    let deadline := (dateSearch titleText).getD []
    let budget :=
      match currencySearch titleText with
      | some (g1, g2) => g1 ++ ' ' :: g2
      | none => []
    some
      { title := (pyStrip titleText).take 200
        description := description
        deadline := deadline
        budget := budget
        industry := txt "Information Technology"
        requirements := []
        source_url := pageUrl
        scraped_at := now.isoformat }

/-! ### The rate limiter (`RateLimiter`)

Time is idealized as exact rational clock readings.  `wait_if_needed` reads
the clock (`now`), possibly sleeps, then reads the clock again (`wake`) and
stores it; the jitter drawn from `random.uniform(0, delay_seconds)` is an
oracle input. -/

structure RateLimiter where
  requests_per_minute : ℚ
  delay_seconds : ℚ
  last_request_time : ℚ
deriving DecidableEq

/-- `RateLimiter.wait_if_needed()`: returns the length of the sleep performed
(0 when no sleep) and the updated limiter state. -/
def RateLimiter.waitIfNeeded (rl : RateLimiter) (now jitter wake : ℚ) :
    ℚ × RateLimiter :=
  let timeSinceLast := now - rl.last_request_time
  let minInterval := 60 / rl.requests_per_minute
  let sleepTime :=
    if timeSinceLast < minInterval then minInterval - timeSinceLast + jitter else 0
  (sleepTime, { rl with last_request_time := wake })

/-! ### The orchestrator (`TenderScraper.scrape_web`)

The strategies are oracles: each either returns a list of raw records or
raises (`Except.error ()`).  `scrapeWebT` mirrors the control flow of
`scrape_web` lines 72-143 and additionally records a ghost event trace: one
`rateLimit` event for the `wait_if_needed` call and one `attempt` event per
strategy invocation. -/

/-- `site_config` (from `tender_sites.json`); `[]` models an absent or empty
(falsy) entry. -/
structure SiteCfg where
  api_url : PyStr := []
  rss_url : PyStr := []
  scraper_type : PyStr := []
deriving DecidableEq

/-- The strategy oracles available to `scrape_web`. -/
structure StrategyEnv where
  apiEndpoint : PyStr → PyStr → Except Unit (List Tender)
  rssFeed : PyStr → PyStr → Except Unit (List Tender)
  playwright : PyStr → Except Unit (List Tender)
  selenium : PyStr → Except Unit (List Tender)
  requestsStrat : PyStr → Except Unit (List Tender)
  apiEndpoints : PyStr → Except Unit (List Tender)

/-- Ghost trace events. -/
inductive Ev where
  | rateLimit : Ev
  | attempt : String → Ev
deriving DecidableEq

/-- The generic cascade loop (lines 121-131): each strategy's exception is
caught and the loop continues; the first non-empty result is returned raw. -/
def runCascade : List (String × Except Unit (List Tender)) →
    Option (List Tender) × List Ev
  | [] => (none, [])
  | (nm, r) :: rest =>
    match r with
    | .error _ =>
      let (res, evs) := runCascade rest
      (res, Ev.attempt nm :: evs)
    | .ok t =>
      if t.isEmpty then
        let (res, evs) := runCascade rest
        (res, Ev.attempt nm :: evs)
      else (some t, [Ev.attempt nm])

/-- The strategy list of the generic cascade, in source order. -/
def cascadeItems (env : StrategyEnv) (url : PyStr) :
    List (String × Except Unit (List Tender)) :=
  [("playwright", env.playwright url), ("selenium", env.selenium url),
   ("requests", env.requestsStrat url), ("api_endpoints", env.apiEndpoints url)]

/-- Lines 113-139: the generic cascade followed by the sample-data fallback
(`config.USE_SAMPLE_DATA`) or the empty list. -/
def stepCascadeSample (env : StrategyEnv) (url : PyStr) (useSample : Bool)
    (now : PyDateTime) : List Tender × List Ev :=
  match runCascade (cascadeItems env url) with
  | (some raw, evs) => (postProcess raw url now, evs)
  | (none, evs) => ((if useSample then sampleTenders url now else []), evs)

/-- Lines 94-111: the explicitly configured `scraper_type` branch.  The value
`'auto'` (or any other unrecognized value) reaches the `else` arm, which calls
`self._scrape_with_default_strategy(url)` — a method that does not exist
anywhere in the class, so attribute lookup raises `AttributeError`; that is
modelled as `Except.error ()` with no strategy attempted.  An empty result
falls through to the generic cascade. -/
def stepScraperType (env : StrategyEnv) (url : PyStr) (c : SiteCfg)
    (useSample : Bool) (now : PyDateTime) : Except Unit (List Tender) × List Ev :=
  if c.scraper_type = [] then
    let (r, evs) := stepCascadeSample env url useSample now
    (.ok r, evs)
  else
    let call : Except Unit (List Tender) × List Ev :=
      if c.scraper_type = txt "playwright" then
        (env.playwright url, [Ev.attempt "playwright"])
      else if c.scraper_type = txt "selenium" then
        (env.selenium url, [Ev.attempt "selenium"])
      else if c.scraper_type = txt "requests" then
        (env.requestsStrat url, [Ev.attempt "requests"])
      else (.error (), [])
    match call with
    | (.error e, evs) => (.error e, evs)
    | (.ok t, evs) =>
      if t.isEmpty then
        let (r, evs2) := stepCascadeSample env url useSample now
        (.ok r, evs ++ evs2)
      else (.ok (postProcess t url now), evs)

/-- Lines 86-92: the RSS branch, then the rest. -/
def stepRss (env : StrategyEnv) (url : PyStr) (c : SiteCfg) (useSample : Bool)
    (now : PyDateTime) : Except Unit (List Tender) × List Ev :=
  if c.rss_url ≠ [] then
    match env.rssFeed c.rss_url url with
    | .error e => (.error e, [Ev.attempt "rss"])
    | .ok t =>
      if t.isEmpty then
        let (r, evs) := stepScraperType env url c useSample now
        (r, Ev.attempt "rss" :: evs)
      else (.ok (postProcess t url now), [Ev.attempt "rss"])
  else stepScraperType env url c useSample now

/-- The body of `scrape_web` after the rate-limiting call: the API branch,
then the RSS branch, the explicit scraper type, the generic cascade and the
sample fallback.  An uncaught exception propagates as `Except.error`. -/
def scrapeBody (env : StrategyEnv) (url : PyStr) (cfg : Option SiteCfg)
    (useSample : Bool) (now : PyDateTime) : Except Unit (List Tender) × List Ev :=
  match cfg with
  | none =>
    let (r, evs) := stepCascadeSample env url useSample now
    (.ok r, evs)
  | some c =>
    if c.api_url ≠ [] then
      match env.apiEndpoint c.api_url url with
      | .error e => (.error e, [Ev.attempt "api"])
      | .ok t =>
        if t.isEmpty then
          let (r, evs) := stepRss env url c useSample now
          (r, Ev.attempt "api" :: evs)
        else (.ok (postProcess t url now), [Ev.attempt "api"])
    else stepRss env url c useSample now

/-- `scrape_web(url, site_config)`: rate limiting first, then the body; the
whole body sits in a `try` whose handler catches any exception and returns
`[]`. -/
def scrapeWebT (env : StrategyEnv) (url : PyStr) (cfg : Option SiteCfg)
    (useSample : Bool) (now : PyDateTime) : List Tender × List Ev :=
  match scrapeBody env url cfg useSample now with
  | (.ok l, evs) => (l, Ev.rateLimit :: evs)
  | (.error _, evs) => ([], Ev.rateLimit :: evs)

/-- The tenders `scrape_web` returns (the event trace projected away). -/
def scrapeWeb (env : StrategyEnv) (url : PyStr) (cfg : Option SiteCfg)
    (useSample : Bool) (now : PyDateTime) : List Tender :=
  (scrapeWebT env url cfg useSample now).1

/-- Strategy names actually attempted, in trace order. -/
def attemptNames (evs : List Ev) : List String :=
  evs.filterMap (fun e => match e with | .attempt n => some n | .rateLimit => none)

/-- The names of the generic cascade, in priority order. -/
def cascadeNames : List String := ["playwright", "selenium", "requests", "api_endpoints"]

/-- The strategy name the explicit `scraper_type` dispatch would attempt
(empty both when no type is configured and when the configured type is
unrecognized — the latter attempts nothing and raises). -/
def explicitSeg (c : SiteCfg) : List String :=
  if c.scraper_type = [] then []
  else if c.scraper_type = txt "playwright" then ["playwright"]
  else if c.scraper_type = txt "selenium" then ["selenium"]
  else if c.scraper_type = txt "requests" then ["requests"]
  else []

/-- The full potential strategy order for a given `site_config`, per the
source: API endpoint, RSS, the explicit scraper type, then the generic
cascade. -/
def attemptOrder (cfg : Option SiteCfg) : List String :=
  match cfg with
  | none => cascadeNames
  | some c =>
    (if c.api_url ≠ [] then ["api"] else []) ++
    (if c.rss_url ≠ [] then ["rss"] else []) ++
    explicitSeg c ++ cascadeNames

section SanityChecks

/-- An environment in which every strategy raises. -/
def envAllRaise : StrategyEnv :=
  { apiEndpoint := fun _ _ => .error (), rssFeed := fun _ _ => .error ()
    playwright := fun _ => .error (), selenium := fun _ => .error ()
    requestsStrat := fun _ => .error (), apiEndpoints := fun _ => .error () }

/-- An environment in which every strategy returns the empty list. -/
def envAllEmpty : StrategyEnv :=
  { apiEndpoint := fun _ _ => .ok [], rssFeed := fun _ _ => .ok []
    playwright := fun _ => .ok [], selenium := fun _ => .ok []
    requestsStrat := fun _ => .ok [], apiEndpoints := fun _ => .ok [] }

/-- A fixed clock value for concrete checks. -/
def ts0 : PyDateTime := ⟨2025, 1, 2, 3, 4, 5, 0⟩

example : scrapeWeb envAllRaise (txt "http://x") none true ts0 =
    sampleTenders (txt "http://x") ts0 := by decide
example : scrapeWeb envAllEmpty (txt "http://x") none false ts0 = [] := by decide
example :
    (scrapeWebT envAllEmpty (txt "http://x") none true ts0).2 =
      [Ev.rateLimit, Ev.attempt "playwright", Ev.attempt "selenium",
       Ev.attempt "requests", Ev.attempt "api_endpoints"] := by decide
example :
    scrapeWeb envAllEmpty (txt "http://x")
      (some { scraper_type := txt "auto" }) true ts0 = [] := by decide

end SanityChecks

/-! ### Lemmas about `pyStrip` -/

theorem dropWhile_head_not (p : Char → Bool) (l : PyStr) :
    ∀ c, (l.dropWhile p).head? = some c → p c = false := by
  induction l with
  | nil => intro c h; simp [List.dropWhile] at h
  | cons a t ih =>
    intro c h
    by_cases hp : p a
    · rw [List.dropWhile_cons_of_pos hp] at h
      exact ih c h
    · rw [List.dropWhile_cons_of_neg hp] at h
      simp at h
      subst h
      exact Bool.of_not_eq_true hp

theorem dropWhile_eq_self_of (p : Char → Bool) (l : PyStr)
    (h : ∀ c, l.head? = some c → p c = false) : l.dropWhile p = l := by
  cases l with
  | nil => rfl
  | cons a t =>
    have := h a rfl
    rw [List.dropWhile_cons_of_neg (by simp [this])]

theorem dropWhile_getLast? (p : Char → Bool) (l : PyStr)
    (h : l.dropWhile p ≠ []) : (l.dropWhile p).getLast? = l.getLast? := by
  induction l with
  | nil => simp [List.dropWhile] at h
  | cons a t ih =>
    by_cases hp : p a
    · rw [List.dropWhile_cons_of_pos hp] at h ⊢
      rw [ih h]
      have ht : t ≠ [] := by
        intro he; rw [he] at h; simp [List.dropWhile] at h
      cases t with
      | nil => exact absurd rfl ht
      | cons b u => simp [List.getLast?_cons_cons]
    · rw [List.dropWhile_cons_of_neg hp]

/-- A string with no whitespace at either edge. -/
def NoEdgeSpace (l : PyStr) : Prop :=
  (∀ c, l.head? = some c → pyIsSpace c = false) ∧
  (∀ c, l.getLast? = some c → pyIsSpace c = false)

theorem pyStrip_noEdge (l : PyStr) : NoEdgeSpace (pyStrip l) := by
  unfold pyStrip
  set a := l.dropWhile pyIsSpace with ha
  set b := a.reverse.dropWhile pyIsSpace with hb
  constructor
  · intro c hc
    rw [List.head?_reverse] at hc
    by_cases hbe : b = []
    · rw [hbe] at hc; simp at hc
    · rw [hb, dropWhile_getLast? _ _ (hb ▸ hbe), List.getLast?_reverse] at hc
      exact dropWhile_head_not pyIsSpace l c (ha ▸ hc)
  · intro c hc
    rw [List.getLast?_reverse] at hc
    exact dropWhile_head_not pyIsSpace a.reverse c (hb ▸ hc)

theorem pyStrip_eq_self (l : PyStr) (h : NoEdgeSpace l) : pyStrip l = l := by
  unfold pyStrip
  rw [dropWhile_eq_self_of pyIsSpace l h.1]
  rw [dropWhile_eq_self_of pyIsSpace l.reverse (by
    intro c hc; rw [List.head?_reverse] at hc; exact h.2 c hc)]
  exact List.reverse_reverse l

theorem pyStrip_idem (l : PyStr) : pyStrip (pyStrip l) = pyStrip l :=
  pyStrip_eq_self (pyStrip l) (pyStrip_noEdge l)

theorem pyStrip_nil : pyStrip [] = [] := rfl

theorem ne_nil_of_pyStrip_ne_nil (l : PyStr) (h : pyStrip l ≠ []) : l ≠ [] := by
  intro he; rw [he] at h; exact h pyStrip_nil

/-! ### Idempotence of the post-processor -/

theorem head?_take_pos (n : Nat) (l : PyStr) (h : 0 < n) :
    (l.take n).head? = l.head? := by
  cases l with
  | nil => simp
  | cons a t =>
    cases n with
    | zero => omega
    | succ m => simp

/-- A truncated-and-ellipsized description is stable: it has no edge
whitespace, its length is 503, and re-truncating reproduces it. -/
theorem truncStable (d : PyStr) (hd : NoEdgeSpace d) (hl : d.length > 500) :
    pyStrip (d.take 500 ++ txt "...") = d.take 500 ++ txt "..." ∧
    (d.take 500 ++ txt "...").length = 503 ∧
    (d.take 500 ++ txt "...").take 500 = d.take 500 := by
  have hlen : (d.take 500).length = 500 := by
    rw [List.length_take]; omega
  refine ⟨?_, ?_, ?_⟩
  · apply pyStrip_eq_self
    constructor
    · intro c hc
      rw [List.head?_append_of_ne_nil _ (by rw [← List.length_pos]; omega)] at hc
      rw [head?_take_pos 500 d (by omega)] at hc
      exact hd.1 c hc
    · intro c hc
      rw [List.getLast?_append_of_ne_nil _ (by decide)] at hc
      simp [txt] at hc
      subst hc; decide
  · rw [List.length_append, hlen]; rfl
  · have : (d.take 500 ++ txt "...").take 500 = d.take 500 := by
      rw [← hlen]; simp
    exact this

/-- Applying the record-level post-processing step to its own output changes
nothing. -/
theorem postProcessOne_stable (t t' : Tender) (u : PyStr) (ts : PyDateTime)
    (h : postProcessOne t u ts = some t') : postProcessOne t' u ts = some t' := by
  unfold postProcessOne at h
  by_cases hg : t.title = [] || (pyStrip t.title).length < 5
  · rw [if_pos hg] at h; exact absurd h (by simp)
  rw [if_neg hg] at h
  simp only [Bool.or_eq_true, not_or, decide_eq_true_eq] at hg
  injection h with h
  subst h
  unfold postProcessOne
  rw [if_neg ?hguard]
  case hguard =>
    simp only [Bool.or_eq_true, not_or, decide_eq_true_eq]
    constructor
    · show ¬(pyStrip t.title = [])
      intro he
      have h5 := hg.2
      rw [he] at h5
      simp at h5
    · show ¬((pyStrip (pyStrip t.title)).length < 5)
      rw [pyStrip_idem]
      omega
  congr 1
  have htitle : pyStrip (pyStrip t.title) = pyStrip t.title := pyStrip_idem _
  by_cases hdesc : t.description = []
  · by_cases hdl : t.deadline = []
    · simp [hdesc, hdl, htitle]
    · by_cases hm : (dateAtStart t.deadline).isSome
      · simp [hdesc, hdl, hm, htitle]
      · simp [hdesc, hdl, hm, htitle]
  · by_cases h500 : (pyStrip t.description).length > 500
    · obtain ⟨hs, hlen, htake⟩ :=
        truncStable (pyStrip t.description) (pyStrip_noEdge _) h500
      by_cases hdl : t.deadline = []
      · simp [hdesc, h500, hdl, htitle, hs, hlen, htake]
      · by_cases hm : (dateAtStart t.deadline).isSome
        · simp [hdesc, h500, hdl, hm, htitle, hs, hlen, htake]
        · simp [hdesc, h500, hdl, hm, htitle, hs, hlen, htake]
    · have hs2 : pyStrip (pyStrip t.description) = pyStrip t.description :=
        pyStrip_idem _
      by_cases hnil : pyStrip t.description = []
      · by_cases hdl : t.deadline = []
        · simp [hdesc, h500, hdl, htitle, hs2, hnil]
        · by_cases hm : (dateAtStart t.deadline).isSome
          · simp [hdesc, h500, hdl, hm, htitle, hs2, hnil]
          · simp [hdesc, h500, hdl, hm, htitle, hs2, hnil]
      · by_cases hdl : t.deadline = []
        · simp [hdesc, h500, hdl, htitle, hs2, hnil]
        · by_cases hm : (dateAtStart t.deadline).isSome
          · simp [hdesc, h500, hdl, hm, htitle, hs2, hnil]
          · simp [hdesc, h500, hdl, hm, htitle, hs2, hnil]

theorem postProcess_mem (l : List Tender) (u : PyStr) (ts : PyDateTime)
    (t : Tender) (h : t ∈ postProcess l u ts) :
    ∃ t0 ∈ l, postProcessOne t0 u ts = some t := by
  simpa [postProcess, List.mem_filterMap] using h

theorem postProcess_idem (l : List Tender) (u : PyStr) (ts : PyDateTime) :
    postProcess (postProcess l u ts) u ts = postProcess l u ts := by
  unfold postProcess
  induction l with
  | nil => rfl
  | cons a rest ih =>
    simp only [List.filterMap_cons]
    cases hpp : postProcessOne a u ts with
    | none => exact ih
    | some b =>
      simp only [List.filterMap_cons, postProcessOne_stable a b u ts hpp]
      rw [ih]

/-- The fields the post-processor forces on every record it keeps. -/
theorem postProcessOne_fields (t t' : Tender) (u : PyStr) (ts : PyDateTime)
    (h : postProcessOne t u ts = some t') :
    t'.title = pyStrip t.title ∧ 5 ≤ (pyStrip t.title).length ∧
    t'.source_url = u ∧ t'.scraped_at = ts.isoformat ∧
    t'.industry = t.industry ∧ t'.requirements = t.requirements ∧
    (t'.deadline = [] ∨ (dateAtStart t'.deadline).isSome) := by
  unfold postProcessOne at h
  by_cases hg : t.title = [] || (pyStrip t.title).length < 5
  · rw [if_pos hg] at h; exact absurd h (by simp)
  rw [if_neg hg] at h
  simp only [Bool.or_eq_true, not_or, decide_eq_true_eq] at hg
  injection h with h
  subst h
  refine ⟨rfl, by omega, rfl, rfl, rfl, rfl, ?_⟩
  show (if t.deadline ≠ [] then
      if (dateAtStart t.deadline).isSome then t.deadline else []
    else t.deadline) = [] ∨ _
  by_cases hdl : t.deadline = []
  · left; simp [hdl]
  · by_cases hm : (dateAtStart t.deadline).isSome
    · right; simp [hdl, hm]
    · left; simp [hdl, hm]

/-! ### The ISO-8601 shape of `isoformat` -/

theorem digitChar_mod_isDigit (n : Nat) : (Nat.digitChar (n % 10)).isDigit = true := by
  have h : n % 10 < 10 := Nat.mod_lt _ (by omega)
  have hall : ∀ m, m < 10 → (Nat.digitChar m).isDigit = true := by decide
  exact hall _ h

theorem isoformat_iso (d : PyDateTime) : isIso8601 d.isoformat = true := by
  by_cases hms : d.microsecond = 0
  · simp [PyDateTime.isoformat, pad4, pad2, pad6, isIso8601, hms, digitChar_mod_isDigit]
  · simp [PyDateTime.isoformat, pad4, pad2, pad6, isIso8601, hms, digitChar_mod_isDigit]

theorem isoformat_ne_nil (d : PyDateTime) : d.isoformat ≠ [] := by
  by_cases hms : d.microsecond = 0 <;> simp [PyDateTime.isoformat, pad4, pad2, hms]

/-! ### Where `scrape_web` output records come from -/

/-- `raw` is the (raw, pre-post-processing) result of one of the strategy
oracles for this url. -/
def StratResult (env : StrategyEnv) (url : PyStr) (raw : List Tender) : Prop :=
  (∃ a, env.apiEndpoint a url = .ok raw) ∨ (∃ r, env.rssFeed r url = .ok raw) ∨
  env.playwright url = .ok raw ∨ env.selenium url = .ok raw ∨
  env.requestsStrat url = .ok raw ∨ env.apiEndpoints url = .ok raw

theorem runCascade_some (items : List (String × Except Unit (List Tender)))
    (raw : List Tender) (evs : List Ev)
    (h : runCascade items = (some raw, evs)) :
    ∃ nm, (nm, Except.ok raw) ∈ items := by
  induction items generalizing evs with
  | nil => simp [runCascade] at h
  | cons it rest ih =>
    obtain ⟨nm, r⟩ := it
    rcases hrc : runCascade rest with ⟨o, evs2⟩
    cases r with
    | error e =>
      rw [runCascade, hrc] at h
      dsimp only at h
      simp only [Prod.mk.injEq] at h
      obtain ⟨nm', hm⟩ := ih evs2 (by rw [hrc, h.1])
      exact ⟨nm', List.mem_cons_of_mem _ hm⟩
    | ok tl =>
      rw [runCascade] at h
      dsimp only at h
      by_cases hte : tl.isEmpty
      · rw [if_pos hte, hrc] at h
        dsimp only at h
        simp only [Prod.mk.injEq] at h
        obtain ⟨nm', hm⟩ := ih evs2 (by rw [hrc, h.1])
        exact ⟨nm', List.mem_cons_of_mem _ hm⟩
      · rw [if_neg hte] at h
        simp only [Prod.mk.injEq] at h
        obtain ⟨h1, -⟩ := h
        injection h1 with h1
        subst h1
        exact ⟨nm, List.mem_cons_self _ _⟩

theorem cascadeItems_strat (env : StrategyEnv) (url : PyStr) (nm : String)
    (raw : List Tender) (h : (nm, Except.ok raw) ∈ cascadeItems env url) :
    StratResult env url raw := by
  simp only [cascadeItems, List.mem_cons, List.not_mem_nil, or_false,
    Prod.mk.injEq] at h
  rcases h with ⟨_, h⟩ | ⟨_, h⟩ | ⟨_, h⟩ | ⟨_, h⟩
  · exact Or.inr (Or.inr (Or.inl h.symm))
  · exact Or.inr (Or.inr (Or.inr (Or.inl h.symm)))
  · exact Or.inr (Or.inr (Or.inr (Or.inr (Or.inl h.symm))))
  · exact Or.inr (Or.inr (Or.inr (Or.inr (Or.inr h.symm))))

theorem stepCascadeSample_mem (env : StrategyEnv) (url : PyStr) (s : Bool)
    (ts : PyDateTime) (t : Tender) (h : t ∈ (stepCascadeSample env url s ts).1) :
    (∃ raw, StratResult env url raw ∧ t ∈ postProcess raw url ts) ∨
      t ∈ sampleTenders url ts := by
  rcases hrc : runCascade (cascadeItems env url) with ⟨o, evs⟩
  cases o with
  | some raw =>
    rw [stepCascadeSample, hrc] at h
    obtain ⟨nm, hm⟩ := runCascade_some _ raw evs hrc
    exact Or.inl ⟨raw, cascadeItems_strat env url nm raw hm, h⟩
  | none =>
    rw [stepCascadeSample, hrc] at h
    cases s with
    | true => exact Or.inr h
    | false => simp at h

theorem explicitCall_mem (env : StrategyEnv) (url : PyStr) (s : Bool)
    (ts : PyDateTime) (t : Tender) (l : List Tender)
    (strat : Except Unit (List Tender)) (evs0 evs : List Ev)
    (hstrat : ∀ tl, strat = .ok tl → StratResult env url tl)
    (h : (match (strat, evs0) with
          | (Except.error e, evs1) => ((Except.error e : Except Unit (List Tender)), evs1)
          | (Except.ok tl, evs1) =>
            if tl.isEmpty then
              ((Except.ok (stepCascadeSample env url s ts).1 : Except Unit (List Tender)),
                evs1 ++ (stepCascadeSample env url s ts).2)
            else (Except.ok (postProcess tl url ts), evs1)) = (Except.ok l, evs))
    (ht : t ∈ l) :
    (∃ raw, StratResult env url raw ∧ t ∈ postProcess raw url ts) ∨
      t ∈ sampleTenders url ts := by
  cases strat with
  | error e => dsimp only at h; exact absurd h (by simp)
  | ok tl =>
    dsimp only at h
    by_cases hte : tl.isEmpty
    · rw [if_pos hte] at h
      simp only [Prod.mk.injEq] at h
      obtain ⟨h1, -⟩ := h
      injection h1 with h1
      subst h1
      exact stepCascadeSample_mem env url s ts t ht
    · rw [if_neg hte] at h
      simp only [Prod.mk.injEq] at h
      obtain ⟨h1, -⟩ := h
      injection h1 with h1
      subst h1
      exact Or.inl ⟨tl, hstrat tl rfl, ht⟩

theorem stepScraperType_mem (env : StrategyEnv) (url : PyStr) (c : SiteCfg)
    (s : Bool) (ts : PyDateTime) (t : Tender) (l : List Tender) (evs : List Ev)
    (h : stepScraperType env url c s ts = (.ok l, evs)) (ht : t ∈ l) :
    (∃ raw, StratResult env url raw ∧ t ∈ postProcess raw url ts) ∨
      t ∈ sampleTenders url ts := by
  by_cases h0 : c.scraper_type = []
  · rcases hsc : stepCascadeSample env url s ts with ⟨r, evs2⟩
    rw [stepScraperType, if_pos h0, hsc] at h
    dsimp only at h
    simp only [Prod.mk.injEq] at h
    obtain ⟨h1, -⟩ := h
    injection h1 with h1
    subst h1
    exact stepCascadeSample_mem env url s ts t (by rw [hsc]; exact ht)
  · rw [stepScraperType, if_neg h0] at h
    by_cases h1 : c.scraper_type = txt "playwright"
    · rw [if_pos h1] at h
      exact explicitCall_mem env url s ts t l (env.playwright url)
        [Ev.attempt "playwright"] evs
        (fun tl htl => Or.inr (Or.inr (Or.inl htl))) h ht
    · rw [if_neg h1] at h
      by_cases h2 : c.scraper_type = txt "selenium"
      · rw [if_pos h2] at h
        exact explicitCall_mem env url s ts t l (env.selenium url)
          [Ev.attempt "selenium"] evs
          (fun tl htl => Or.inr (Or.inr (Or.inr (Or.inl htl)))) h ht
      · rw [if_neg h2] at h
        by_cases h3 : c.scraper_type = txt "requests"
        · rw [if_pos h3] at h
          exact explicitCall_mem env url s ts t l (env.requestsStrat url)
            [Ev.attempt "requests"] evs
            (fun tl htl => Or.inr (Or.inr (Or.inr (Or.inr (Or.inl htl))))) h ht
        · rw [if_neg h3] at h
          simp at h

theorem stepRss_mem (env : StrategyEnv) (url : PyStr) (c : SiteCfg) (s : Bool)
    (ts : PyDateTime) (t : Tender) (l : List Tender) (evs : List Ev)
    (h : stepRss env url c s ts = (.ok l, evs)) (ht : t ∈ l) :
    (∃ raw, StratResult env url raw ∧ t ∈ postProcess raw url ts) ∨
      t ∈ sampleTenders url ts := by
  by_cases h0 : c.rss_url ≠ []
  · rw [stepRss, if_pos h0] at h
    revert h
    cases hr : env.rssFeed c.rss_url url with
    | error e => intro h; dsimp only at h; exact absurd h (by simp)
    | ok tl =>
      intro h
      dsimp only at h
      by_cases hte : tl.isEmpty
      · rcases hst : stepScraperType env url c s ts with ⟨r, evs2⟩
        rw [if_pos hte, hst] at h
        dsimp only at h
        simp only [Prod.mk.injEq] at h
        obtain ⟨h1, -⟩ := h
        subst h1
        exact stepScraperType_mem env url c s ts t l evs2 (by rw [hst]) ht
      · rw [if_neg hte] at h
        simp only [Prod.mk.injEq] at h
        obtain ⟨h1, -⟩ := h
        injection h1 with h1
        subst h1
        exact Or.inl ⟨tl, Or.inr (Or.inl ⟨c.rss_url, hr⟩), ht⟩
  · rw [stepRss, if_neg h0] at h
    exact stepScraperType_mem env url c s ts t l evs h ht

theorem scrapeBody_mem (env : StrategyEnv) (url : PyStr) (cfg : Option SiteCfg)
    (s : Bool) (ts : PyDateTime) (t : Tender) (l : List Tender) (evs : List Ev)
    (h : scrapeBody env url cfg s ts = (.ok l, evs)) (ht : t ∈ l) :
    (∃ raw, StratResult env url raw ∧ t ∈ postProcess raw url ts) ∨
      t ∈ sampleTenders url ts := by
  cases cfg with
  | none =>
    rcases hsc : stepCascadeSample env url s ts with ⟨r, evs2⟩
    rw [scrapeBody, hsc] at h
    dsimp only at h
    simp only [Prod.mk.injEq] at h
    obtain ⟨h1, -⟩ := h
    injection h1 with h1
    subst h1
    exact stepCascadeSample_mem env url s ts t (by rw [hsc]; exact ht)
  | some c =>
    rw [scrapeBody] at h
    dsimp only at h
    by_cases h0 : c.api_url ≠ []
    · rw [if_pos h0] at h
      revert h
      cases ha : env.apiEndpoint c.api_url url with
      | error e => intro h; dsimp only at h; exact absurd h (by simp)
      | ok tl =>
        intro h
        dsimp only at h
        by_cases hte : tl.isEmpty
        · rcases hrs : stepRss env url c s ts with ⟨r, evs2⟩
          rw [if_pos hte, hrs] at h
          dsimp only at h
          simp only [Prod.mk.injEq] at h
          obtain ⟨h1, -⟩ := h
          subst h1
          exact stepRss_mem env url c s ts t l evs2 (by rw [hrs]) ht
        · rw [if_neg hte] at h
          simp only [Prod.mk.injEq] at h
          obtain ⟨h1, -⟩ := h
          injection h1 with h1
          subst h1
          exact Or.inl ⟨tl, Or.inl ⟨c.api_url, ha⟩, ht⟩
    · rw [if_neg h0] at h
      exact stepRss_mem env url c s ts t l evs h ht

/-- Every record `scrape_web` returns is either the post-processing of some
strategy's raw output, or one of the fixed sample records. -/
theorem scrapeWeb_mem (env : StrategyEnv) (url : PyStr) (cfg : Option SiteCfg)
    (s : Bool) (ts : PyDateTime) (t : Tender)
    (h : t ∈ scrapeWeb env url cfg s ts) :
    (∃ raw, StratResult env url raw ∧ t ∈ postProcess raw url ts) ∨
      t ∈ sampleTenders url ts := by
  unfold scrapeWeb scrapeWebT at h
  rcases hb : scrapeBody env url cfg s ts with ⟨r, evs⟩
  rw [hb] at h
  cases r with
  | error e => dsimp only at h; exact absurd h (by simp)
  | ok l =>
    dsimp only at h
    exact scrapeBody_mem env url cfg s ts t l evs hb h

/-! ## Claim C1 -/

/-- **C1.** For every list returned by `scrape_web` and every record in it:
the `title` field is non-empty and at least 5 characters after trimming, the
`source_url` field equals the url argument passed to `scrape_web`, and the
`scraped_at` field is a non-empty ISO-8601 timestamp — regardless of which
strategy (or the sample-data fallback, which bypasses the post-processor)
produced the record. -/
theorem claim1_output_invariants (env : StrategyEnv) (url : PyStr)
    (cfg : Option SiteCfg) (s : Bool) (ts : PyDateTime) (t : Tender)
    (h : t ∈ scrapeWeb env url cfg s ts) :
    t.title ≠ [] ∧ 5 ≤ (pyStrip t.title).length ∧ t.source_url = url ∧
    t.scraped_at ≠ [] ∧ isIso8601 t.scraped_at = true := by
  rcases scrapeWeb_mem env url cfg s ts t h with ⟨raw, -, hpp⟩ | hsm
  · obtain ⟨t0, -, h0⟩ := postProcess_mem raw url ts t hpp
    obtain ⟨htt, hlen, hsrc, hsc, -, -, -⟩ := postProcessOne_fields t0 t url ts h0
    refine ⟨?_, ?_, hsrc, ?_, ?_⟩
    · rw [htt]; intro he; rw [he] at hlen; simp at hlen
    · rw [htt, pyStrip_idem]; exact hlen
    · rw [hsc]; exact isoformat_ne_nil ts
    · rw [hsc]; exact isoformat_iso ts
  · simp only [sampleTenders, List.mem_cons, List.not_mem_nil, or_false] at hsm
    rcases hsm with h1 | h1 <;> subst h1
    · refine ⟨?_, ?_, rfl, isoformat_ne_nil ts, isoformat_iso ts⟩
      · show txt "Cloud Migration Services for Government Agency" ≠ []
        decide
      · show 5 ≤ (pyStrip (txt "Cloud Migration Services for Government Agency")).length
        decide
    · refine ⟨?_, ?_, rfl, isoformat_ne_nil ts, isoformat_iso ts⟩
      · show txt "Cybersecurity Infrastructure Upgrade" ≠ []
        decide
      · show 5 ≤ (pyStrip (txt "Cybersecurity Infrastructure Upgrade")).length
        decide

/-- A concrete sample record, for instantiating hypotheses. -/
def sampleHead : Tender := (sampleTenders (txt "http://x") ts0).headD {}

/-- Witness for C1 at a concrete run (all strategies raise, sample mode on). -/
theorem claim1_witness :
    sampleHead.title ≠ [] ∧ 5 ≤ (pyStrip sampleHead.title).length ∧
    sampleHead.source_url = txt "http://x" ∧ sampleHead.scraped_at ≠ [] ∧
    isIso8601 sampleHead.scraped_at = true :=
  claim1_output_invariants envAllRaise (txt "http://x") none true ts0 sampleHead
    (by decide)

/-! ## Claim C2 -/

/-- A raw record whose deadline has a valid date followed by trailing text;
the unanchored `re.match` validation accepts it unchanged. -/
def rawTrailingDeadline : Tender :=
  { title := txt "Network Upgrade for County Offices"
    deadline := txt "01/03/2025 at noon" }

/-- An environment whose rendered-DOM strategy finds `rawTrailingDeadline`. -/
def envTrailing : StrategyEnv :=
  { envAllRaise with playwright := fun _ => .ok [rawTrailingDeadline] }

/-- **C2 fails on the code**: a returned deadline can carry trailing
characters after the date literal, because `_post_process_tenders` validates
with `re.match` and no `$` anchor.  Here `scrape_web` emits the deadline
`"01/03/2025 at noon"`, which is non-empty and matches neither anchored
pattern. -/
theorem claim2_counterexample :
    (scrapeWeb envTrailing (txt "http://x") none false ts0).map Tender.deadline =
      [txt "01/03/2025 at noon"] ∧
    specAnchoredDate (txt "01/03/2025 at noon") = false ∧
    txt "01/03/2025 at noon" ≠ [] := by decide

/-- **C2 (amended).** For every record in the output of `scrape_web`, the
deadline is either empty or has a PREFIX matching one of the two date
patterns (the code validates with `re.match`, which does not anchor the end,
so trailing characters may remain). -/
theorem claim2_amended_deadline_shape (env : StrategyEnv) (url : PyStr)
    (cfg : Option SiteCfg) (s : Bool) (ts : PyDateTime) (t : Tender)
    (h : t ∈ scrapeWeb env url cfg s ts) :
    t.deadline = [] ∨ (dateAtStart t.deadline).isSome = true := by
  rcases scrapeWeb_mem env url cfg s ts t h with ⟨raw, -, hpp⟩ | hsm
  · obtain ⟨t0, -, h0⟩ := postProcess_mem raw url ts t hpp
    exact (postProcessOne_fields t0 t url ts h0).2.2.2.2.2.2
  · simp only [sampleTenders, List.mem_cons, List.not_mem_nil, or_false] at hsm
    rcases hsm with h1 | h1 <;> subst h1
    · right
      show (dateAtStart (txt "2025-02-15")).isSome = true
      decide
    · right
      show (dateAtStart (txt "2025-03-01")).isSome = true
      decide

/-- Witness for the amended C2 at a concrete run. -/
theorem claim2_witness :
    sampleHead.deadline = [] ∨ (dateAtStart sampleHead.deadline).isSome = true :=
  claim2_amended_deadline_shape envAllRaise (txt "http://x") none true ts0
    sampleHead (by decide)

/-! ## Claim C6 -/

/-- **C6.** Post-processing is idempotent: applying `_post_process_tenders`
to its own output (with the same source url, the scrape time held fixed as
the explicit clock parameter) yields the same records, with no field further
truncated or otherwise changed. -/
theorem claim6_postProcess_idempotent (l : List Tender) (u : PyStr)
    (ts : PyDateTime) :
    postProcess (postProcess l u ts) u ts = postProcess l u ts :=
  postProcess_idem l u ts

/-! ## Claim C7 -/

set_option maxRecDepth 100000

/-- A 501-character RSS summary. -/
def longSummary : PyStr := List.replicate 501 'a'

/-- The feed entry carrying it. -/
def rssEntry501 : RssEntry :=
  { title := txt "RSS Tender with a very long description", summary := longSummary }

/-- Site configuration selecting the RSS strategy. -/
def cfgRss : SiteCfg := { rss_url := txt "http://feed.example/rss" }

/-- An environment whose RSS strategy parses the one-entry feed through the
modelled `_scrape_with_rss`. -/
def envRss : StrategyEnv :=
  { envAllRaise with
    rssFeed := fun _ su => .ok (scrapeWithRss [rssEntry501] su ts0) }

/-- **C7 fails on the code**: the RSS strategy pre-truncates the summary to
500 characters with NO ellipsis marker (`entry.get('summary','')[:500]`), so
a 501-character source description is emitted silently cut to its bare
500-character prefix — not the 500-character prefix plus the marker. -/
theorem claim7_counterexample :
    (scrapeWeb envRss (txt "http://x") (some cfgRss) false ts0).map
        Tender.description = [List.replicate 500 'a'] ∧
    longSummary.length = 501 ∧
    List.replicate 500 'a' ≠ longSummary.take 500 ++ txt "..." := by decide

/-- **C7 (amended).** The ellipsis marker is appended only by the
post-processor, and only when the description it receives still exceeds 500
characters after stripping; the RSS strategy hands over the summary already
cut to 500 characters (other strategies cut at extraction time likewise), so
such records are emitted without the marker. -/
theorem claim7_amended_truncation :
    (∀ (t t' : Tender) (u : PyStr) (ts : PyDateTime),
      postProcessOne t u ts = some t' → 500 < (pyStrip t.description).length →
      t'.description = (pyStrip t.description).take 500 ++ txt "...") ∧
    (∀ (e : RssEntry) (su : PyStr) (ts : PyDateTime),
      (rssEntryToTender e su ts).description = e.summary.take 500) := by
  constructor
  · intro t t' u ts h h500
    unfold postProcessOne at h
    by_cases hg : t.title = [] || (pyStrip t.title).length < 5
    · rw [if_pos hg] at h; exact absurd h (by simp)
    rw [if_neg hg] at h
    injection h with h
    subst h
    have hdne : t.description ≠ [] := by
      apply ne_nil_of_pyStrip_ne_nil
      intro he; rw [he] at h500; simp at h500
    show (if t.description ≠ [] then _ else t.description) = _
    rw [if_pos hdne]
    simp only [gt_iff_lt, h500, if_true]
  · intro e su ts
    rfl

/-- A raw record with a 501-character description reaching the
post-processor directly. -/
def rawLong : Tender :=
  { title := txt "Tender with a long description"
    description := List.replicate 501 'b' }

/-- Its post-processed form. -/
def ppLong : Tender := (postProcessOne rawLong (txt "u") ts0).getD {}

/-- Witness for the amended C7 at concrete inputs. -/
theorem claim7_witness :
    ppLong.description = (pyStrip rawLong.description).take 500 ++ txt "..." ∧
    (rssEntryToTender rssEntry501 (txt "http://x") ts0).description =
      rssEntry501.summary.take 500 :=
  ⟨claim7_amended_truncation.1 rawLong ppLong (txt "u") ts0 (by decide) (by decide),
   claim7_amended_truncation.2 rssEntry501 (txt "http://x") ts0⟩

/-! ## Claim C8 -/

/-- **C8.** `wait_if_needed` computes `min_interval = 60 / requests_per_minute`;
when the elapsed time since the previous call is below `min_interval` it
sleeps `min_interval - elapsed + jitter` with `jitter` drawn uniformly from
`[0, delay_seconds]`, otherwise it does not sleep; it then stores the
post-wake clock reading in `last_request_time`.  With
`requests_per_minute = 30`, an immediate second call is blocked for at least
2 seconds minus the elapsed gap. -/
theorem claim8_rate_limiter (rpm delay last now jitter wake : ℚ)
    (h0 : 0 ≤ jitter) (_h1 : jitter ≤ delay) :
    ((now - last < 60 / rpm →
        (RateLimiter.mk rpm delay last).waitIfNeeded now jitter wake =
          (60 / rpm - (now - last) + jitter, RateLimiter.mk rpm delay wake)) ∧
      (¬ now - last < 60 / rpm →
        (RateLimiter.mk rpm delay last).waitIfNeeded now jitter wake =
          (0, RateLimiter.mk rpm delay wake))) ∧
    (rpm = 30 → now - last < 2 →
      2 - (now - last) ≤
        ((RateLimiter.mk rpm delay last).waitIfNeeded now jitter wake).1) := by
  refine ⟨⟨?_, ?_⟩, ?_⟩
  · intro hlt
    unfold RateLimiter.waitIfNeeded
    simp only [if_pos hlt]
  · intro hge
    unfold RateLimiter.waitIfNeeded
    simp only [if_neg hge]
  · intro hrpm hlt
    subst hrpm
    unfold RateLimiter.waitIfNeeded
    have h2 : (60 : ℚ) / 30 = 2 := by norm_num
    simp only [h2]
    rw [if_pos hlt]
    linarith

/-- Witness for C8 with `requests_per_minute = 30`, an elapsed gap of one
second and a half-second jitter. -/
theorem claim8_witness :
    2 - ((1 : ℚ) - 0) ≤ ((RateLimiter.mk 30 1 0).waitIfNeeded 1 (1/2) 4).1 :=
  (claim8_rate_limiter 30 1 0 1 (1/2) 4 (by norm_num) (by norm_num)).2 rfl
    (by norm_num)

/-! ## Claim C9 -/

/-- The table of the scenario: a header row and two data rows. -/
def scenarioRows : List (List PyStr) :=
  [[txt "Tender No", txt "Title", txt "Deadline", txt "Documents"],
   [txt "TND-001", txt "Network Upgrade for County Offices", txt "01/03/2025", txt ""],
   [txt "", txt "short", txt "", txt ""]]

/-- **C9.** On a table with a header row plus the two stated data rows, both
the static-HTML and the rendered-DOM table extractors yield exactly one
Tender, with title `"Network Upgrade for County Offices"` and deadline
`"01/03/2025"`; the `"short"` row is discarded. -/
theorem claim9_table_scenario :
    ((extractTendersFromStaticTable scenarioRows (txt "http://s") ts0).map
        (fun t => (t.title, t.deadline)) =
      [(txt "Network Upgrade for County Offices", txt "01/03/2025")]) ∧
    ((extractTendersFromSingleTable scenarioRows (txt "http://s") ts0).map
        (fun t => (t.title, t.deadline)) =
      [(txt "Network Upgrade for County Offices", txt "01/03/2025")]) := by decide

/-! ## Claim C5 -/

/-- A well-formed raw record every strategy of `envAllGood` returns. -/
def rawGood : Tender :=
  { title := txt "Valid tender title example", deadline := txt "01/03/2025" }

/-- An environment in which every strategy succeeds with `rawGood`. -/
def envAllGood : StrategyEnv :=
  { apiEndpoint := fun _ _ => .ok [rawGood], rssFeed := fun _ _ => .ok [rawGood]
    playwright := fun _ => .ok [rawGood], selenium := fun _ => .ok [rawGood]
    requestsStrat := fun _ => .ok [rawGood], apiEndpoints := fun _ => .ok [rawGood] }

/-- **C5 exposes a code bug.**  `scraper_type = "auto"` (an allowed value)
reaches the `else` arm of the dispatch, which calls
`self._scrape_with_default_strategy(url)` — a method that exists nowhere in
the class — so an `AttributeError` is raised and swallowed by the top-level
handler: `scrape_web` returns `[]` with no strategy attempted, no fallback to
the generic cascade, and no sample data, even though every strategy would
succeed and sample mode is on.  A recognized value such as `"requests"`
behaves as the claim describes. -/
theorem claim5_auto_bug_eval :
    scrapeWebT envAllGood (txt "http://x") (some { scraper_type := txt "auto" })
        true ts0 = ([], [Ev.rateLimit]) ∧
    (scrapeWeb envAllGood (txt "http://x") (some { scraper_type := txt "requests" })
        true ts0).map Tender.title = [txt "Valid tender title example"] := by decide

/-! ## Claim C10 -/

/-- The strategy oracles only emit records with a non-empty industry. -/
def EmitsIndustry (env : StrategyEnv) : Prop :=
  (∀ a u l, env.apiEndpoint a u = .ok l → ∀ t ∈ l, t.industry ≠ []) ∧
  (∀ r u l, env.rssFeed r u = .ok l → ∀ t ∈ l, t.industry ≠ []) ∧
  (∀ u l, env.playwright u = .ok l → ∀ t ∈ l, t.industry ≠ []) ∧
  (∀ u l, env.selenium u = .ok l → ∀ t ∈ l, t.industry ≠ []) ∧
  (∀ u l, env.requestsStrat u = .ok l → ∀ t ∈ l, t.industry ≠ []) ∧
  (∀ u l, env.apiEndpoints u = .ok l → ∀ t ∈ l, t.industry ≠ [])

theorem finishRow_industry (w : Tender) : (finishRow w).industry = w.industry := by
  unfold finishRow
  split <;> rfl

theorem firstIndustryField_ne_nil (fs : List PyStr) (i : PyStr)
    (h : firstIndustryField fs = some i) : i ≠ [] := by
  induction fs with
  | nil => simp [firstIndustryField] at h
  | cons f rest ih =>
    rw [firstIndustryField] at h
    by_cases hc : f ≠ [] && pyStrip f ≠ []
    · rw [if_pos hc] at h
      injection h with h
      subst h
      simpa using (Bool.and_elim_right hc)
    · rw [if_neg hc] at h
      exact ih h

theorem inferIndustryAux_ne_nil (table : List (PyStr × List PyStr))
    (lowered : PyStr) (h : ∀ p ∈ table, p.1 ≠ []) :
    inferIndustryAux table lowered ≠ [] := by
  induction table with
  | nil => simp [inferIndustryAux, txt]
  | cons p rest ih =>
    obtain ⟨name, kws⟩ := p
    rw [inferIndustryAux]
    by_cases hc : kws.any (fun k => hasSub k lowered)
    · rw [if_pos hc]
      exact h (name, kws) (List.mem_cons_self _ _)
    · rw [if_neg hc]
      exact ih (fun q hq => h q (List.mem_cons_of_mem _ hq))

/-- **C10.** Every modelled record constructor emits a non-empty `industry`
(defaulting to `"Information Technology"`), the post-processor preserves
`industry` and `requirements` (which is a list by construction), and hence
every tender `scrape_web` returns from such strategies — or from the sample
fallback — carries a non-empty industry. -/
theorem claim10_industry_requirements :
    (∀ item : ApiItem, extractIndustryFromApi item ≠ []) ∧
    (∀ (e : DynElem) (p : PyStr) (ts : PyDateTime) (t : Tender),
      extractTenderDataDynamic e p ts = some t →
      t.industry = txt "Information Technology") ∧
    (∀ (cells hs : List PyStr) (p : PyStr) (ts : PyDateTime),
      (extractTenderFromTableRow cells hs p ts).industry =
        txt "Information Technology") ∧
    (∀ (cells hs : List PyStr) (u : PyStr) (ts : PyDateTime),
      (extractTenderFromStaticTableRow cells hs u ts).industry =
        txt "Information Technology") ∧
    (∀ (e : RssEntry) (u : PyStr) (ts : PyDateTime),
      (rssEntryToTender e u ts).industry = txt "Information Technology") ∧
    (∀ (l : List Tender) (u : PyStr) (ts : PyDateTime) (t : Tender),
      t ∈ postProcess l u ts →
      ∃ t0 ∈ l, t.industry = t0.industry ∧ t.requirements = t0.requirements) ∧
    (∀ (env : StrategyEnv) (url : PyStr) (cfg : Option SiteCfg) (s : Bool)
      (ts : PyDateTime), EmitsIndustry env →
      ∀ t ∈ scrapeWeb env url cfg s ts, t.industry ≠ []) := by
  refine ⟨?_, ?_, ?_, ?_, ?_, ?_, ?_⟩
  · intro item
    unfold extractIndustryFromApi
    cases hf : firstIndustryField
        [item.industry, item.sector, item.category, item.domain, item.field] with
    | some i => exact firstIndustryField_ne_nil _ i hf
    | none =>
      apply inferIndustryAux_ne_nil
      intro p hp
      simp only [industryKeywords, List.mem_cons, List.not_mem_nil, or_false] at hp
      rcases hp with h | h | h | h | h | h <;> subst h <;> decide
  · intro e p ts t h
    unfold extractTenderDataDynamic at h
    by_cases hg : e.innerText = [] || (pyStrip e.innerText).length < 10
    · rw [if_pos hg] at h; exact absurd h (by simp)
    · rw [if_neg hg] at h
      injection h with h
      subst h
      rfl
  · intro cells hs p ts
    show (finishRow _).industry = _
    rw [finishRow_industry]
  · intro cells hs u ts
    show (finishRow _).industry = _
    rw [finishRow_industry]
  · intro e u ts
    rfl
  · intro l u ts t h
    obtain ⟨t0, hm, h0⟩ := postProcess_mem l u ts t h
    obtain ⟨-, -, -, -, hi, hr, -⟩ := postProcessOne_fields t0 t u ts h0
    exact ⟨t0, hm, hi, hr⟩
  · intro env url cfg s ts hemit t h
    rcases scrapeWeb_mem env url cfg s ts t h with ⟨raw, hsr, hpp⟩ | hsm
    · obtain ⟨t0, hm0, h0⟩ := postProcess_mem raw url ts t hpp
      have hi := (postProcessOne_fields t0 t url ts h0).2.2.2.2.1
      rw [hi]
      rcases hsr with ⟨a, ha⟩ | ⟨r, hr⟩ | hp | hp | hp | hp
      · exact hemit.1 a url raw ha t0 hm0
      · exact hemit.2.1 r url raw hr t0 hm0
      · exact hemit.2.2.1 url raw hp t0 hm0
      · exact hemit.2.2.2.1 url raw hp t0 hm0
      · exact hemit.2.2.2.2.1 url raw hp t0 hm0
      · exact hemit.2.2.2.2.2 url raw hp t0 hm0
    · simp only [sampleTenders, List.mem_cons, List.not_mem_nil, or_false] at hsm
      rcases hsm with h1 | h1 <;> subst h1
      · show txt "Information Technology" ≠ []
        decide
      · show txt "Information Technology" ≠ []
        decide

/-- Witness for C10 at concrete inputs (the all-raising environment
satisfies `EmitsIndustry` vacuously; the sample head record is returned). -/
theorem claim10_witness :
    extractIndustryFromApi {} ≠ [] ∧ sampleHead.industry ≠ [] :=
  ⟨claim10_industry_requirements.1 {},
   claim10_industry_requirements.2.2.2.2.2.2 envAllRaise (txt "http://x") none
     true ts0
     (by
       refine ⟨?_, ?_, ?_, ?_, ?_, ?_⟩ <;>
         first
         | (intro a u l h; simp [envAllRaise] at h)
         | (intro u l h; simp [envAllRaise] at h))
     sampleHead (by decide)⟩

/-! ## Claim C3 -/

/-- Every strategy returns the empty list ("yields nothing"). -/
def AllEmpty (env : StrategyEnv) : Prop :=
  (∀ a u, env.apiEndpoint a u = .ok []) ∧ (∀ r u, env.rssFeed r u = .ok []) ∧
  (∀ u, env.playwright u = .ok []) ∧ (∀ u, env.selenium u = .ok []) ∧
  (∀ u, env.requestsStrat u = .ok []) ∧ (∀ u, env.apiEndpoints u = .ok [])

/-- Every strategy raises. -/
def AllRaise (env : StrategyEnv) : Prop :=
  (∀ a u, env.apiEndpoint a u = .error ()) ∧ (∀ r u, env.rssFeed r u = .error ()) ∧
  (∀ u, env.playwright u = .error ()) ∧ (∀ u, env.selenium u = .error ()) ∧
  (∀ u, env.requestsStrat u = .error ()) ∧ (∀ u, env.apiEndpoints u = .error ())

/-- The configured scraper type, if any, is one the dispatch recognizes. -/
def KnownScraperType : Option SiteCfg → Prop
  | none => True
  | some c =>
    c.scraper_type = [] ∨ c.scraper_type = txt "playwright" ∨
    c.scraper_type = txt "selenium" ∨ c.scraper_type = txt "requests"

theorem runCascade_none (items : List (String × Except Unit (List Tender)))
    (h : ∀ p ∈ items, p.2 = .error () ∨ p.2 = .ok []) :
    (runCascade items).1 = none := by
  induction items with
  | nil => rfl
  | cons it rest ih =>
    obtain ⟨nm, r⟩ := it
    rcases hrc : runCascade rest with ⟨o, evs⟩
    have ho : o = none := by
      have := ih (fun p hp => h p (List.mem_cons_of_mem _ hp))
      rwa [hrc] at this
    subst ho
    rcases h (nm, r) (List.mem_cons_self _ _) with he | he <;> dsimp only at he <;>
      subst he <;> (rw [runCascade, hrc]; try simp)

theorem stepCascadeSample_fst (env : StrategyEnv) (url : PyStr) (s : Bool)
    (ts : PyDateTime)
    (hc : ∀ p ∈ cascadeItems env url, p.2 = .error () ∨ p.2 = .ok []) :
    (stepCascadeSample env url s ts).1 =
      if s then sampleTenders url ts else [] := by
  rcases hrc : runCascade (cascadeItems env url) with ⟨o, evs⟩
  have ho : o = none := by
    have := runCascade_none (cascadeItems env url) hc
    rwa [hrc] at this
  subst ho
  rw [stepCascadeSample, hrc]

theorem allEmpty_cascade (env : StrategyEnv) (url : PyStr) (he : AllEmpty env) :
    ∀ p ∈ cascadeItems env url, p.2 = .error () ∨ p.2 = .ok [] := by
  intro p hp
  simp only [cascadeItems, List.mem_cons, List.not_mem_nil, or_false] at hp
  rcases hp with h | h | h | h <;> subst h
  · exact Or.inr (he.2.2.1 url)
  · exact Or.inr (he.2.2.2.1 url)
  · exact Or.inr (he.2.2.2.2.1 url)
  · exact Or.inr (he.2.2.2.2.2 url)

theorem allRaise_cascade (env : StrategyEnv) (url : PyStr) (hr : AllRaise env) :
    ∀ p ∈ cascadeItems env url, p.2 = .error () ∨ p.2 = .ok [] := by
  intro p hp
  simp only [cascadeItems, List.mem_cons, List.not_mem_nil, or_false] at hp
  rcases hp with h | h | h | h <;> subst h
  · exact Or.inl (hr.2.2.1 url)
  · exact Or.inl (hr.2.2.2.1 url)
  · exact Or.inl (hr.2.2.2.2.1 url)
  · exact Or.inl (hr.2.2.2.2.2 url)

theorem stepScraperType_fst_allEmpty (env : StrategyEnv) (url : PyStr)
    (c : SiteCfg) (s : Bool) (ts : PyDateTime) (he : AllEmpty env)
    (hk : KnownScraperType (some c)) :
    (stepScraperType env url c s ts).1 =
      .ok (if s then sampleTenders url ts else []) := by
  have hcs := stepCascadeSample_fst env url s ts (allEmpty_cascade env url he)
  rcases hk with h0 | h0 | h0 | h0
  · rw [stepScraperType, if_pos h0]
    dsimp only
    rw [hcs]
  · rw [stepScraperType, if_neg (by rw [h0]; decide), if_pos h0, he.2.2.1 url]
    simp [hcs]
  · rw [stepScraperType, if_neg (by rw [h0]; decide),
      if_neg (by rw [h0]; decide), if_pos h0, he.2.2.2.1 url]
    simp [hcs]
  · rw [stepScraperType, if_neg (by rw [h0]; decide),
      if_neg (by rw [h0]; decide), if_neg (by rw [h0]; decide), if_pos h0,
      he.2.2.2.2.1 url]
    simp [hcs]

theorem stepRss_fst_allEmpty (env : StrategyEnv) (url : PyStr) (c : SiteCfg)
    (s : Bool) (ts : PyDateTime) (he : AllEmpty env)
    (hk : KnownScraperType (some c)) :
    (stepRss env url c s ts).1 = .ok (if s then sampleTenders url ts else []) := by
  have hst := stepScraperType_fst_allEmpty env url c s ts he hk
  by_cases h0 : c.rss_url ≠ []
  · rw [stepRss, if_pos h0, he.2.1 c.rss_url url]
    simp [hst]
  · rw [stepRss, if_neg h0]
    exact hst

theorem scrapeWeb_allEmpty (env : StrategyEnv) (url : PyStr)
    (cfg : Option SiteCfg) (s : Bool) (ts : PyDateTime) (he : AllEmpty env)
    (hk : KnownScraperType cfg) :
    scrapeWeb env url cfg s ts = if s then sampleTenders url ts else [] := by
  have hbody : (scrapeBody env url cfg s ts).1 =
      .ok (if s then sampleTenders url ts else []) := by
    cases cfg with
    | none =>
      rw [scrapeBody]
      dsimp only
      rw [stepCascadeSample_fst env url s ts (allEmpty_cascade env url he)]
    | some c =>
      rw [scrapeBody]
      dsimp only
      by_cases h0 : c.api_url ≠ []
      · rw [if_pos h0, he.1 c.api_url url]
        simp [stepRss_fst_allEmpty env url c s ts he hk]
      · rw [if_neg h0]
        exact stepRss_fst_allEmpty env url c s ts he hk
  rcases hb : scrapeBody env url cfg s ts with ⟨r, evs⟩
  rw [hb] at hbody
  dsimp only at hbody
  subst hbody
  rw [scrapeWeb, scrapeWebT, hb]

theorem stepScraperType_fst_allRaise (env : StrategyEnv) (url : PyStr)
    (c : SiteCfg) (s : Bool) (ts : PyDateTime) (hr : AllRaise env) :
    (stepScraperType env url c s ts).1 = .error () ∨
    (stepScraperType env url c s ts).1 =
      .ok (if s then sampleTenders url ts else []) := by
  have hcs := stepCascadeSample_fst env url s ts (allRaise_cascade env url hr)
  by_cases h0 : c.scraper_type = []
  · right
    rw [stepScraperType, if_pos h0]
    dsimp only
    rw [hcs]
  · rw [stepScraperType, if_neg h0]
    by_cases h1 : c.scraper_type = txt "playwright"
    · left; rw [if_pos h1, hr.2.2.1 url]
    · rw [if_neg h1]
      by_cases h2 : c.scraper_type = txt "selenium"
      · left; rw [if_pos h2, hr.2.2.2.1 url]
      · rw [if_neg h2]
        by_cases h3 : c.scraper_type = txt "requests"
        · left; rw [if_pos h3, hr.2.2.2.2.1 url]
        · left; rw [if_neg h3]

theorem stepRss_fst_allRaise (env : StrategyEnv) (url : PyStr) (c : SiteCfg)
    (s : Bool) (ts : PyDateTime) (hr : AllRaise env) :
    (stepRss env url c s ts).1 = .error () ∨
    (stepRss env url c s ts).1 = .ok (if s then sampleTenders url ts else []) := by
  by_cases h0 : c.rss_url ≠ []
  · left; rw [stepRss, if_pos h0, hr.2.1 c.rss_url url]
  · rw [stepRss, if_neg h0]
    exact stepScraperType_fst_allRaise env url c s ts hr

theorem scrapeWeb_allRaise (env : StrategyEnv) (url : PyStr)
    (cfg : Option SiteCfg) (s : Bool) (ts : PyDateTime) (hr : AllRaise env) :
    scrapeWeb env url cfg s ts = [] ∨
    scrapeWeb env url cfg s ts = (if s then sampleTenders url ts else []) := by
  have hbody : (scrapeBody env url cfg s ts).1 = .error () ∨
      (scrapeBody env url cfg s ts).1 =
        .ok (if s then sampleTenders url ts else []) := by
    cases cfg with
    | none =>
      right
      rw [scrapeBody]
      dsimp only
      rw [stepCascadeSample_fst env url s ts (allRaise_cascade env url hr)]
    | some c =>
      rw [scrapeBody]
      dsimp only
      by_cases h0 : c.api_url ≠ []
      · left; rw [if_pos h0, hr.1 c.api_url url]
      · rw [if_neg h0]
        exact stepRss_fst_allRaise env url c s ts hr
  rcases hb : scrapeBody env url cfg s ts with ⟨r, evs⟩
  rw [hb] at hbody
  dsimp only at hbody
  rcases hbody with h1 | h1 <;> subst h1
  · left; rw [scrapeWeb, scrapeWebT, hb]
  · right; rw [scrapeWeb, scrapeWebT, hb]

/-- **C3 fails on the code** at `scraper_type = "auto"`: every strategy
yields nothing and sample mode is on, yet `scrape_web` returns `[]` rather
than the non-empty sample list, because the dispatch calls the nonexistent
`_scrape_with_default_strategy` and the resulting `AttributeError` lands in
the top-level handler. -/
theorem claim3_counterexample :
    scrapeWeb envAllEmpty (txt "http://x") (some { scraper_type := txt "auto" })
        true ts0 = [] ∧
    sampleTenders (txt "http://x") ts0 ≠ [] := by decide

/-- **C3 (amended).** `scrape_web` never propagates an exception and always
returns a list.  When every strategy yields the empty list AND any explicitly
configured scraper type is one the dispatch recognizes, it returns the fixed
non-empty sample list if the offline/sample-mode flag is set and the empty
list otherwise; an unrecognized scraper type (such as `"auto"`) instead
raises internally and yields `[]` via the top-level handler.  When every
strategy raises, the result is still a list: `[]`, or the sample/empty
fallback when the raise is swallowed by the cascade. -/
theorem claim3_amended_total_and_fallback :
    (∀ (env : StrategyEnv) (url : PyStr) (cfg : Option SiteCfg) (s : Bool)
      (ts : PyDateTime), AllEmpty env → KnownScraperType cfg →
      scrapeWeb env url cfg s ts = if s then sampleTenders url ts else []) ∧
    (∀ (url : PyStr) (ts : PyDateTime), sampleTenders url ts ≠ []) ∧
    (∀ (env : StrategyEnv) (url : PyStr) (cfg : Option SiteCfg) (s : Bool)
      (ts : PyDateTime), AllRaise env →
      scrapeWeb env url cfg s ts = [] ∨
      scrapeWeb env url cfg s ts = (if s then sampleTenders url ts else [])) :=
  ⟨fun env url cfg s ts he hk => scrapeWeb_allEmpty env url cfg s ts he hk,
   fun _ _ => by simp [sampleTenders],
   fun env url cfg s ts hr => scrapeWeb_allRaise env url cfg s ts hr⟩

/-- Witness for the amended C3: with every strategy empty and sample mode
on, the sample list is returned; with every strategy raising, a list is
still returned. -/
theorem claim3_witness :
    scrapeWeb envAllEmpty (txt "http://x") none true ts0 =
      (if true then sampleTenders (txt "http://x") ts0 else []) ∧
    (scrapeWeb envAllRaise (txt "http://x") none false ts0 = [] ∨
      scrapeWeb envAllRaise (txt "http://x") none false ts0 =
        (if false then sampleTenders (txt "http://x") ts0 else [])) :=
  ⟨claim3_amended_total_and_fallback.1 envAllEmpty (txt "http://x") none true ts0
      (by
        refine ⟨?_, ?_, ?_, ?_, ?_, ?_⟩ <;> intro _ <;> first | (intro _; rfl) | rfl)
      trivial,
   claim3_amended_total_and_fallback.2.2 envAllRaise (txt "http://x") none false
      ts0
      (by
        refine ⟨?_, ?_, ?_, ?_, ?_, ?_⟩ <;> intro _ <;> first | (intro _; rfl) | rfl)⟩

/-! ## Claim C4 -/

/-- `l₁` is an initial segment of `l₂`. -/
def TakePre (l₁ l₂ : List String) : Prop := ∃ k, l₁ = l₂.take k

theorem tp_nil (l : List String) : TakePre [] l := ⟨0, rfl⟩

theorem tp_cons (x : String) (t l : List String) (h : TakePre t l) :
    TakePre (x :: t) (x :: l) := by
  obtain ⟨k, hk⟩ := h
  exact ⟨k + 1, by rw [List.take_succ_cons, hk]⟩

theorem tp_one (x : String) (l : List String) : TakePre [x] (x :: l) :=
  ⟨1, rfl⟩

theorem tp_append (a t l : List String) (h : TakePre t l) :
    TakePre (a ++ t) (a ++ l) := by
  induction a with
  | nil => exact h
  | cons x xs ih => exact tp_cons x _ _ ih

/-- No step of the body ever emits a `rateLimit` event, and its attempt
events follow the stated order.  Proved by induction on the cascade and case
analysis on the branches. -/
theorem runCascade_events (items : List (String × Except Unit (List Tender))) :
    Ev.rateLimit ∉ (runCascade items).2 ∧
    TakePre (attemptNames (runCascade items).2) (items.map Prod.fst) := by
  induction items with
  | nil => exact ⟨by simp [runCascade], tp_nil _⟩
  | cons it rest ih =>
    obtain ⟨nm, r⟩ := it
    rcases hrc : runCascade rest with ⟨o, evs⟩
    rw [hrc] at ih
    cases r with
    | error e =>
      rw [runCascade, hrc]
      refine ⟨by simpa using ih.1, ?_⟩
      simpa [attemptNames] using tp_cons nm _ _ ih.2
    | ok tl =>
      by_cases hte : tl.isEmpty
      · rw [runCascade, if_pos hte, hrc]
        refine ⟨by simpa using ih.1, ?_⟩
        simpa [attemptNames] using tp_cons nm _ _ ih.2
      · rw [runCascade, if_neg hte]
        exact ⟨by simp, by simpa [attemptNames] using tp_one nm _⟩

theorem stepCascadeSample_events (env : StrategyEnv) (url : PyStr) (s : Bool)
    (ts : PyDateTime) :
    Ev.rateLimit ∉ (stepCascadeSample env url s ts).2 ∧
    TakePre (attemptNames (stepCascadeSample env url s ts).2) cascadeNames := by
  have h := runCascade_events (cascadeItems env url)
  have hmap : (cascadeItems env url).map Prod.fst = cascadeNames := rfl
  rw [hmap] at h
  rcases hrc : runCascade (cascadeItems env url) with ⟨o, evs⟩
  rw [hrc] at h
  cases o with
  | some raw => rw [stepCascadeSample, hrc]; exact h
  | none => rw [stepCascadeSample, hrc]; exact h

theorem stepScraperType_events (env : StrategyEnv) (url : PyStr) (c : SiteCfg)
    (s : Bool) (ts : PyDateTime) :
    Ev.rateLimit ∉ (stepScraperType env url c s ts).2 ∧
    TakePre (attemptNames (stepScraperType env url c s ts).2)
      (explicitSeg c ++ cascadeNames) := by
  have hcs := stepCascadeSample_events env url s ts
  by_cases h0 : c.scraper_type = []
  · rcases hsc : stepCascadeSample env url s ts with ⟨r, evs⟩
    rw [hsc] at hcs
    rw [stepScraperType, if_pos h0, hsc, explicitSeg, if_pos h0]
    exact ⟨hcs.1, hcs.2⟩
  · rw [stepScraperType, if_neg h0, explicitSeg, if_neg h0]
    by_cases h1 : c.scraper_type = txt "playwright"
    · rw [if_pos h1, if_pos h1]
      cases hp : env.playwright url with
      | error e => exact ⟨by simp, by simpa [attemptNames] using tp_one _ _⟩
      | ok tl =>
        by_cases hte : tl.isEmpty
        · rcases hsc : stepCascadeSample env url s ts with ⟨r, evs⟩
          rw [hsc] at hcs
          dsimp only
          rw [if_pos hte]
          refine ⟨by simpa using hcs.1, ?_⟩
          simpa [attemptNames] using tp_cons "playwright" _ _ hcs.2
        · dsimp only
          rw [if_neg hte]
          exact ⟨by simp, by simpa [attemptNames] using tp_one _ _⟩
    · rw [if_neg h1, if_neg h1]
      by_cases h2 : c.scraper_type = txt "selenium"
      · rw [if_pos h2, if_pos h2]
        cases hp : env.selenium url with
        | error e => exact ⟨by simp, by simpa [attemptNames] using tp_one _ _⟩
        | ok tl =>
          by_cases hte : tl.isEmpty
          · rcases hsc : stepCascadeSample env url s ts with ⟨r, evs⟩
            rw [hsc] at hcs
            dsimp only
            rw [if_pos hte]
            refine ⟨by simpa using hcs.1, ?_⟩
            simpa [attemptNames] using tp_cons "selenium" _ _ hcs.2
          · dsimp only
            rw [if_neg hte]
            exact ⟨by simp, by simpa [attemptNames] using tp_one _ _⟩
      · rw [if_neg h2, if_neg h2]
        by_cases h3 : c.scraper_type = txt "requests"
        · rw [if_pos h3, if_pos h3]
          cases hp : env.requestsStrat url with
          | error e => exact ⟨by simp, by simpa [attemptNames] using tp_one _ _⟩
          | ok tl =>
            by_cases hte : tl.isEmpty
            · rcases hsc : stepCascadeSample env url s ts with ⟨r, evs⟩
              rw [hsc] at hcs
              dsimp only
              rw [if_pos hte]
              refine ⟨by simpa using hcs.1, ?_⟩
              simpa [attemptNames] using tp_cons "requests" _ _ hcs.2
            · dsimp only
              rw [if_neg hte]
              exact ⟨by simp, by simpa [attemptNames] using tp_one _ _⟩
        · rw [if_neg h3, if_neg h3]
          exact ⟨by simp, by simpa [attemptNames] using tp_nil _⟩

theorem stepRss_events (env : StrategyEnv) (url : PyStr) (c : SiteCfg)
    (s : Bool) (ts : PyDateTime) :
    Ev.rateLimit ∉ (stepRss env url c s ts).2 ∧
    TakePre (attemptNames (stepRss env url c s ts).2)
      ((if c.rss_url ≠ [] then ["rss"] else []) ++ explicitSeg c ++ cascadeNames) := by
  have hst := stepScraperType_events env url c s ts
  by_cases h0 : c.rss_url ≠ []
  · rw [stepRss, if_pos h0, if_pos h0]
    cases hr : env.rssFeed c.rss_url url with
    | error e => exact ⟨by simp, by simpa [attemptNames] using tp_one _ _⟩
    | ok tl =>
      by_cases hte : tl.isEmpty
      · rcases hsc : stepScraperType env url c s ts with ⟨r, evs⟩
        rw [hsc] at hst
        dsimp only
        rw [if_pos hte]
        refine ⟨by simpa using hst.1, ?_⟩
        simpa [attemptNames] using tp_cons "rss" _ _ hst.2
      · dsimp only
        rw [if_neg hte]
        exact ⟨by simp, by simpa [attemptNames] using tp_one _ _⟩
  · rw [stepRss, if_neg h0, if_neg h0]
    exact ⟨hst.1, by simpa using hst.2⟩

theorem scrapeBody_events (env : StrategyEnv) (url : PyStr)
    (cfg : Option SiteCfg) (s : Bool) (ts : PyDateTime) :
    Ev.rateLimit ∉ (scrapeBody env url cfg s ts).2 ∧
    TakePre (attemptNames (scrapeBody env url cfg s ts).2) (attemptOrder cfg) := by
  cases cfg with
  | none =>
    have hcs := stepCascadeSample_events env url s ts
    rw [scrapeBody]
    dsimp only
    exact hcs
  | some c =>
    have hrs := stepRss_events env url c s ts
    rw [scrapeBody, attemptOrder]
    dsimp only
    by_cases h0 : c.api_url ≠ []
    · rw [if_pos h0, if_pos h0]
      cases ha : env.apiEndpoint c.api_url url with
      | error e => exact ⟨by simp, by simpa [attemptNames] using tp_one _ _⟩
      | ok tl =>
        by_cases hte : tl.isEmpty
        · rcases hrss : stepRss env url c s ts with ⟨r, evs⟩
          rw [hrss] at hrs
          dsimp only
          rw [if_pos hte]
          refine ⟨by simpa using hrs.1, ?_⟩
          simpa [attemptNames] using tp_cons "api" _ _ hrs.2
        · dsimp only
          rw [if_neg hte]
          exact ⟨by simp, by simpa [attemptNames] using tp_one _ _⟩
    · rw [if_neg h0, if_neg h0]
      exact ⟨hrs.1, by simpa using hrs.2⟩

/-! To state short-circuiting for EVERY branch and cascade position at once,
the claim's algorithm ("strict priority order, short-circuiting on the first
strategy that returns a non-empty result") is written down as a spec-side
walk over the ordered list of (name, result) pairs, and `scrape_web` is
proved equal to it. -/

/-- Spec-side: the first strategy in order whose result is a non-empty list
(a raising or empty strategy is passed over). -/
def firstNonEmpty : List (String × Except Unit (List Tender)) →
    Option (String × List Tender)
  | [] => none
  | (nm, r) :: rest =>
    match r with
    | .ok l => if l.isEmpty then firstNonEmpty rest else some (nm, l)
    | .error _ => firstNonEmpty rest

/-- Spec-side: the strategies consulted up to and including the winner (all
of them when none wins). -/
def attemptsUpTo : List (String × Except Unit (List Tender)) → List String
  | [] => []
  | (nm, r) :: rest =>
    match r with
    | .ok l => if l.isEmpty then nm :: attemptsUpTo rest else [nm]
    | .error _ => nm :: attemptsUpTo rest

/-- The API-endpoint slot of the priority order, when configured. -/
def apiItems (env : StrategyEnv) (url : PyStr) (c : SiteCfg) :
    List (String × Except Unit (List Tender)) :=
  if c.api_url ≠ [] then [("api", env.apiEndpoint c.api_url url)] else []

/-- The RSS slot of the priority order, when configured. -/
def rssItems (env : StrategyEnv) (url : PyStr) (c : SiteCfg) :
    List (String × Except Unit (List Tender)) :=
  if c.rss_url ≠ [] then [("rss", env.rssFeed c.rss_url url)] else []

/-- The explicit `scraper_type` slot of the priority order (empty when no
type, or an unrecognized one, is configured). -/
def explicitItems (env : StrategyEnv) (url : PyStr) (c : SiteCfg) :
    List (String × Except Unit (List Tender)) :=
  if c.scraper_type = [] then []
  else if c.scraper_type = txt "playwright" then [("playwright", env.playwright url)]
  else if c.scraper_type = txt "selenium" then [("selenium", env.selenium url)]
  else if c.scraper_type = txt "requests" then [("requests", env.requestsStrat url)]
  else []

/-- The full ordered (name, result) list of the priority order for a given
`site_config`: API endpoint, RSS, explicit scraper type, generic cascade. -/
def orderedItems (env : StrategyEnv) (url : PyStr) :
    Option SiteCfg → List (String × Except Unit (List Tender))
  | none => cascadeItems env url
  | some c =>
    apiItems env url c ++
      (rssItems env url c ++ (explicitItems env url c ++ cascadeItems env url))

/-- The consulted branch strategies return (rather than raise).  A raise in
the API, RSS or explicit-type branch aborts to `[]` via the top-level handler
instead of continuing the cascade (see C3/C5), so first-non-empty-wins
semantics holds exactly on non-raising branch strategies — which the real
implementations are, since each catches its own exceptions and returns a
list. -/
def NoBranchRaise (env : StrategyEnv) (url : PyStr) : Option SiteCfg → Prop
  | none => True
  | some c =>
    (c.api_url ≠ [] → ∃ l, env.apiEndpoint c.api_url url = .ok l) ∧
    (c.rss_url ≠ [] → ∃ l, env.rssFeed c.rss_url url = .ok l) ∧
    (c.scraper_type = txt "playwright" → ∃ l, env.playwright url = .ok l) ∧
    (c.scraper_type = txt "selenium" → ∃ l, env.selenium url = .ok l) ∧
    (c.scraper_type = txt "requests" → ∃ l, env.requestsStrat url = .ok l)

/-- The generic cascade IS the first-non-empty walk: it returns the winner's
raw list and consults exactly the strategies up to the winner. -/
theorem runCascade_firstWins (items : List (String × Except Unit (List Tender))) :
    runCascade items =
      ((firstNonEmpty items).map (fun nl => nl.2),
       (attemptsUpTo items).map Ev.attempt) := by
  induction items with
  | nil => rfl
  | cons it rest ih =>
    obtain ⟨nm, r⟩ := it
    cases r with
    | error e =>
      rw [runCascade, ih]
      simp [firstNonEmpty, attemptsUpTo]
    | ok tl =>
      by_cases hte : tl.isEmpty
      · rw [runCascade, if_pos hte, ih]
        simp [firstNonEmpty, attemptsUpTo, hte]
      · rw [runCascade, if_neg hte]
        simp [firstNonEmpty, attemptsUpTo, hte]

theorem stepCascadeSample_firstWins (env : StrategyEnv) (url : PyStr)
    (s : Bool) (ts : PyDateTime) :
    stepCascadeSample env url s ts =
      ((match firstNonEmpty (cascadeItems env url) with
        | some nl => postProcess nl.2 url ts
        | none => if s then sampleTenders url ts else []),
       (attemptsUpTo (cascadeItems env url)).map Ev.attempt) := by
  rw [stepCascadeSample, runCascade_firstWins]
  cases hf : firstNonEmpty (cascadeItems env url) with
  | some nl => obtain ⟨nm, l⟩ := nl; rfl
  | none => rfl

theorem stepScraperType_firstWins (env : StrategyEnv) (url : PyStr)
    (c : SiteCfg) (s : Bool) (ts : PyDateTime)
    (hp : c.scraper_type = txt "playwright" → ∃ l, env.playwright url = .ok l)
    (hs : c.scraper_type = txt "selenium" → ∃ l, env.selenium url = .ok l)
    (hr : c.scraper_type = txt "requests" → ∃ l, env.requestsStrat url = .ok l)
    (hk : KnownScraperType (some c)) :
    stepScraperType env url c s ts =
      (.ok (match firstNonEmpty (explicitItems env url c ++ cascadeItems env url) with
            | some nl => postProcess nl.2 url ts
            | none => if s then sampleTenders url ts else []),
       (attemptsUpTo (explicitItems env url c ++ cascadeItems env url)).map
         Ev.attempt) := by
  rcases hk with h0 | h0 | h0 | h0
  · rw [stepScraperType, if_pos h0, stepCascadeSample_firstWins,
      explicitItems, if_pos h0, List.nil_append]
  · obtain ⟨l, hl⟩ := hp h0
    have hne : c.scraper_type ≠ [] := by rw [h0]; decide
    rw [stepScraperType, if_neg hne, if_pos h0, hl,
      explicitItems, if_neg hne, if_pos h0, hl]
    dsimp only
    by_cases hte : l.isEmpty
    · rw [if_pos hte, stepCascadeSample_firstWins]
      simp [firstNonEmpty, attemptsUpTo, hte]
    · rw [if_neg hte]
      simp [firstNonEmpty, attemptsUpTo, hte]
  · obtain ⟨l, hl⟩ := hs h0
    have hne : c.scraper_type ≠ [] := by rw [h0]; decide
    have hnp : c.scraper_type ≠ txt "playwright" := by rw [h0]; decide
    rw [stepScraperType, if_neg hne, if_neg hnp, if_pos h0, hl,
      explicitItems, if_neg hne, if_neg hnp, if_pos h0, hl]
    dsimp only
    by_cases hte : l.isEmpty
    · rw [if_pos hte, stepCascadeSample_firstWins]
      simp [firstNonEmpty, attemptsUpTo, hte]
    · rw [if_neg hte]
      simp [firstNonEmpty, attemptsUpTo, hte]
  · obtain ⟨l, hl⟩ := hr h0
    have hne : c.scraper_type ≠ [] := by rw [h0]; decide
    have hnp : c.scraper_type ≠ txt "playwright" := by rw [h0]; decide
    have hns : c.scraper_type ≠ txt "selenium" := by rw [h0]; decide
    rw [stepScraperType, if_neg hne, if_neg hnp, if_neg hns, if_pos h0, hl,
      explicitItems, if_neg hne, if_neg hnp, if_neg hns, if_pos h0, hl]
    dsimp only
    by_cases hte : l.isEmpty
    · rw [if_pos hte, stepCascadeSample_firstWins]
      simp [firstNonEmpty, attemptsUpTo, hte]
    · rw [if_neg hte]
      simp [firstNonEmpty, attemptsUpTo, hte]

theorem stepRss_firstWins (env : StrategyEnv) (url : PyStr) (c : SiteCfg)
    (s : Bool) (ts : PyDateTime)
    (hrss : c.rss_url ≠ [] → ∃ l, env.rssFeed c.rss_url url = .ok l)
    (hp : c.scraper_type = txt "playwright" → ∃ l, env.playwright url = .ok l)
    (hs : c.scraper_type = txt "selenium" → ∃ l, env.selenium url = .ok l)
    (hr : c.scraper_type = txt "requests" → ∃ l, env.requestsStrat url = .ok l)
    (hk : KnownScraperType (some c)) :
    stepRss env url c s ts =
      (.ok (match firstNonEmpty
              (rssItems env url c ++ (explicitItems env url c ++ cascadeItems env url)) with
            | some nl => postProcess nl.2 url ts
            | none => if s then sampleTenders url ts else []),
       (attemptsUpTo
          (rssItems env url c ++ (explicitItems env url c ++ cascadeItems env url))).map
         Ev.attempt) := by
  by_cases h0 : c.rss_url ≠ []
  · obtain ⟨l, hl⟩ := hrss h0
    rw [stepRss, if_pos h0, hl, rssItems, if_pos h0, hl]
    dsimp only
    by_cases hte : l.isEmpty
    · rw [if_pos hte, stepScraperType_firstWins env url c s ts hp hs hr hk]
      simp [firstNonEmpty, attemptsUpTo, hte]
    · rw [if_neg hte]
      simp [firstNonEmpty, attemptsUpTo, hte]
  · rw [stepRss, if_neg h0, rssItems, if_neg h0, List.nil_append]
    exact stepScraperType_firstWins env url c s ts hp hs hr hk

theorem scrapeBody_firstWins (env : StrategyEnv) (url : PyStr)
    (cfg : Option SiteCfg) (s : Bool) (ts : PyDateTime)
    (hnb : NoBranchRaise env url cfg) (hk : KnownScraperType cfg) :
    scrapeBody env url cfg s ts =
      (.ok (match firstNonEmpty (orderedItems env url cfg) with
            | some nl => postProcess nl.2 url ts
            | none => if s then sampleTenders url ts else []),
       (attemptsUpTo (orderedItems env url cfg)).map Ev.attempt) := by
  cases cfg with
  | none =>
    rw [scrapeBody, stepCascadeSample_firstWins]
    rfl
  | some c =>
    obtain ⟨hapi, hrss, hp, hs, hr⟩ := hnb
    rw [scrapeBody, orderedItems]
    by_cases h0 : c.api_url ≠ []
    · obtain ⟨l, hl⟩ := hapi h0
      rw [if_pos h0, hl, apiItems, if_pos h0, hl]
      dsimp only
      by_cases hte : l.isEmpty
      · rw [if_pos hte, stepRss_firstWins env url c s ts hrss hp hs hr hk]
        simp [firstNonEmpty, attemptsUpTo, hte]
      · rw [if_neg hte]
        simp [firstNonEmpty, attemptsUpTo, hte]
    · rw [if_neg h0, apiItems, if_neg h0, List.nil_append]
      exact stepRss_firstWins env url c s ts hrss hp hs hr hk

/-- **C4.** Per `scrape_web` call the rate limiter's `wait_if_needed` runs
exactly once, before any strategy (the trace starts with the single
`rateLimit` event); the strategies actually attempted always form an initial
segment of the stated priority order (API endpoint, RSS, the explicit
scraper type, then playwright → selenium → requests → api-discovery); and
the first strategy returning a non-empty list short-circuits.
Short-circuiting is proved in full generality by the last conjunct: whenever
the consulted branch strategies return rather than raise (as the real ones
always do — each catches its own exceptions) and any configured scraper type
is recognized, `scrape_web` equals the spec-side first-non-empty walk over
the ordered strategy list — the winner's post-processed result is returned
and the trace records exactly the attempts up to and including the winner,
covering the API, RSS, explicit-type and every cascade position at once; the
two preceding conjuncts exhibit the API branch and the cascade head
explicitly. -/
theorem claim4_order_and_rate_limit :
    (∀ (env : StrategyEnv) (url : PyStr) (cfg : Option SiteCfg) (s : Bool)
      (ts : PyDateTime),
      (scrapeWebT env url cfg s ts).2.head? = some Ev.rateLimit ∧
      (scrapeWebT env url cfg s ts).2.count Ev.rateLimit = 1 ∧
      TakePre (attemptNames (scrapeWebT env url cfg s ts).2) (attemptOrder cfg)) ∧
    (∀ (env : StrategyEnv) (url : PyStr) (c : SiteCfg) (s : Bool)
      (ts : PyDateTime) (l : List Tender), c.api_url ≠ [] →
      env.apiEndpoint c.api_url url = .ok l → l ≠ [] →
      scrapeWebT env url (some c) s ts =
        (postProcess l url ts, [Ev.rateLimit, Ev.attempt "api"])) ∧
    (∀ (env : StrategyEnv) (url : PyStr) (s : Bool) (ts : PyDateTime)
      (l : List Tender), env.playwright url = .ok l → l ≠ [] →
      scrapeWebT env url none s ts =
        (postProcess l url ts, [Ev.rateLimit, Ev.attempt "playwright"])) ∧
    (∀ (env : StrategyEnv) (url : PyStr) (cfg : Option SiteCfg) (s : Bool)
      (ts : PyDateTime), NoBranchRaise env url cfg → KnownScraperType cfg →
      scrapeWebT env url cfg s ts =
        ((match firstNonEmpty (orderedItems env url cfg) with
          | some nl => postProcess nl.2 url ts
          | none => if s then sampleTenders url ts else []),
         Ev.rateLimit :: (attemptsUpTo (orderedItems env url cfg)).map
           Ev.attempt)) := by
  refine ⟨?_, ?_, ?_, ?_⟩
  · intro env url cfg s ts
    have hev := scrapeBody_events env url cfg s ts
    rcases hb : scrapeBody env url cfg s ts with ⟨r, evs⟩
    rw [hb] at hev
    have htrace : (scrapeWebT env url cfg s ts).2 = Ev.rateLimit :: evs := by
      cases r with
      | ok l => rw [scrapeWebT, hb]
      | error e => rw [scrapeWebT, hb]
    rw [htrace]
    refine ⟨rfl, ?_, ?_⟩
    · simp [List.count_cons, List.count_eq_zero.mpr hev.1]
    · simpa [attemptNames] using hev.2
  · intro env url c s ts l hapi ha hl
    have hne : ¬ l.isEmpty := by simpa [List.isEmpty_iff] using hl
    rw [scrapeWebT, scrapeBody]
    dsimp only
    rw [if_pos hapi, ha]
    dsimp only
    rw [if_neg hne]
  · intro env url s ts l hp hl
    have hne : ¬ l.isEmpty := by simpa [List.isEmpty_iff] using hl
    rw [scrapeWebT, scrapeBody]
    dsimp only
    rw [stepCascadeSample, cascadeItems, runCascade.eq_def, hp]
    dsimp only
    rw [if_neg hne]
  · intro env url cfg s ts hnb hk
    rw [scrapeWebT, scrapeBody_firstWins env url cfg s ts hnb hk]

/-- An environment in which the first two cascade strategies yield nothing
and the third (requests) wins while the fourth would also succeed. -/
def envMidCascade : StrategyEnv :=
  { apiEndpoint := fun _ _ => .error (), rssFeed := fun _ _ => .error ()
    playwright := fun _ => .ok [], selenium := fun _ => .ok []
    requestsStrat := fun _ => .ok [rawGood], apiEndpoints := fun _ => .ok [rawGood] }

example :
    scrapeWebT envMidCascade (txt "http://x") none false ts0 =
      (postProcess [rawGood] (txt "http://x") ts0,
        [Ev.rateLimit, Ev.attempt "playwright", Ev.attempt "selenium",
          Ev.attempt "requests"]) := by decide

/-- Witness for C4: the rate-limit event leads the trace on a concrete run;
a configured API endpoint returning one record short-circuits; and on a run
where the third cascade strategy is the first non-empty one, `scrape_web`
equals the spec-side first-non-empty walk (its fourth strategy, though
non-empty, is never attempted). -/
theorem claim4_witness :
    ((scrapeWebT envAllGood (txt "http://x") none true ts0).2.head? =
      some Ev.rateLimit) ∧
    (scrapeWebT envAllGood (txt "http://x") (some { api_url := txt "http://api" })
        true ts0 =
      (postProcess [rawGood] (txt "http://x") ts0,
        [Ev.rateLimit, Ev.attempt "api"])) ∧
    (scrapeWebT envMidCascade (txt "http://x") none false ts0 =
      ((match firstNonEmpty (orderedItems envMidCascade (txt "http://x") none) with
        | some nl => postProcess nl.2 (txt "http://x") ts0
        | none => if false then sampleTenders (txt "http://x") ts0 else []),
       Ev.rateLimit ::
         (attemptsUpTo (orderedItems envMidCascade (txt "http://x") none)).map
           Ev.attempt)) :=
  ⟨(claim4_order_and_rate_limit.1 envAllGood (txt "http://x") none true ts0).1,
   claim4_order_and_rate_limit.2.1 envAllGood (txt "http://x")
     { api_url := txt "http://api" } true ts0 [rawGood] (by decide) rfl
     (by decide),
   claim4_order_and_rate_limit.2.2.2 envMidCascade (txt "http://x") none false
     ts0 trivial trivial⟩
